import Mathlib

/-!
# OpenRCT2 sprite containers (`src/openrct2/drawing/Gx.cpp`)

A shallow embedding of the two GX/G1 sprite containers of `Gx.cpp`:

* `GxFile`, the eager container: the element table and the pixel blob are
  resident, the element offsets are addresses into the blob;
* `GxStream`, the streaming container: element records and pixel slices are
  read from the backing stream(s) on every request, with a one-slot cache.

The image object of `src/openrct2/object/ImageObject.cpp`, which maps an index
onto a base image index, is embedded next to them, and so are three platform
services of `src/openrct2/platform`: the locale lookup of `Platform.NT6.cpp`,
the version test and the clock of `Platform.Win32.cpp`.

Conventions of the embedding.

* `size_t`, `uint32_t`, `uintptr_t` values are natural numbers; the unsigned
  subtractions of the source (`i - zoomed_offset`, `_dataSize - offset`,
  `next.offset - src.offset`) and the narrowing `static_cast<uint32_t>` are
  written with an explicit reduction modulo `2 ^ 64` or `2 ^ 32`.
  Stream positions and addresses are sums of small quantities and are kept
  as plain naturals.
* `int16_t` values are integers.
* A call returns `Except GxError α`: a thrown C++ exception or an access
  outside the storage the container owns is an `error`.  The streaming
  container mutates itself behind `const`; its operations return the new
  state next to the result, also when they throw.
* What a platform service obtains from the operating system (the locale name,
  the answer of `RtlGetVersion`, the system file time) is an argument of its
  embedding.
-/

namespace OpenRCT2

/-! ## Outcomes -/

/-- The ways a container call can end without a value. -/
inductive GxError where
  /-- A thrown `std::runtime_error` with its message. -/
  | runtime_error (what : String)
  /-- The exception the stream raises on a read past its end. -/
  | io_exception
  /-- An access outside the storage owned by the container (undefined in C++). -/
  | out_of_bounds
  deriving DecidableEq, Repr

/-! ## Element records -/

/-- Modelled from the spec: the disk element record `rct_g1_element_32bit`
(its declaration is not among the sources).  Sixteen bytes:
`u32 offset; i16 width; i16 height; i16 xOffset; i16 yOffset; u16 flags;
i16 zoomedOffset`. -/
structure rct_g1_element_32bit where
  offset : Nat
  width : Int
  height : Int
  x_offset : Int
  y_offset : Int
  flags : Nat
  zoomed_offset : Int
  deriving DecidableEq, Repr

/-- Modelled from the spec: the runtime element record `rct_g1_element` (its
declaration is not among the sources): the fields of the disk record, with
`offset` a pointer.  The pointer type is a parameter: an address (`Nat`) for
the resident elements of `GxFile`, an owned buffer or null
(`Option (List UInt8)`) for the records the copy accessors hand out. -/
structure rct_g1_element (P : Type) where
  offset : P
  width : Int
  height : Int
  x_offset : Int
  y_offset : Int
  flags : Nat
  zoomed_offset : Int
  deriving DecidableEq, Repr

/-- The record `rct_g1_element result{}`: a null buffer and zero fields. -/
def rct_g1_element.zeroed : rct_g1_element (Option (List UInt8)) :=
  { offset := none, width := 0, height := 0, x_offset := 0, y_offset := 0,
    flags := 0, zoomed_offset := 0 }

/-- Modelled from the spec: the value of `sizeof(rct_g1_element_32bit)`, the
sixteen bytes of the record layout. -/
def sizeof_rct_g1_element_32bit : Nat := 16

/-- Unsigned subtraction at width `w`: the value of `a - b` in `w`-bit
unsigned arithmetic. -/
def wrapSub (w : Nat) (a b : Int) : Nat :=
  ((a - b) % (2 : Int) ^ w).toNat

/-- The slice length the streaming container infers for index `i` of `count`
elements over a blob of `dataSize` bytes, `src` and `next` being the records
at `i` and `i + 1`: `next.offset - src.offset` in 32-bit arithmetic, and for
the last index `dataSize - src.offset` in 64-bit arithmetic. -/
def adjacencyLength (count dataSize i : Nat) (src next : rct_g1_element_32bit) : Nat :=
  if i < count - 1 then wrapSub 32 next.offset src.offset
  else wrapSub 64 dataSize src.offset

/-- The narrowing `static_cast<uint32_t>(i)` of a `size_t`. -/
def toUInt32 (i : Nat) : Nat := i % 2 ^ 32

/-- The value of `(flags & mask) != 0`. -/
def hasFlag (flags mask : Nat) : Bool := flags &&& mask != 0

/-! ## Little-endian decoding -/

/-- An unsigned 16-bit value from two bytes, low byte first. -/
def le16 (b0 b1 : UInt8) : Nat := b0.toNat + 256 * b1.toNat

/-- A signed 16-bit value from two bytes, low byte first. -/
def le16s (b0 b1 : UInt8) : Int :=
  if le16 b0 b1 < 32768 then (le16 b0 b1 : Int) else (le16 b0 b1 : Int) - 65536

/-- An unsigned 32-bit value from four bytes, low byte first. -/
def le32 (b0 b1 b2 b3 : UInt8) : Nat :=
  b0.toNat + 256 * b1.toNat + 65536 * b2.toNat + 16777216 * b3.toNat

/-- Modelled from the spec: the value `ReadValue<uint32_t>()` makes of the four
bytes it read (little-endian, spec §6; `IStream` is not among the sources). -/
def decodeUInt32 : List UInt8 → Option Nat
  | [b0, b1, b2, b3] => some (le32 b0 b1 b2 b3)
  | _ => none

/-- Modelled from the spec: the value `ReadValue<rct_g1_element_32bit>()` makes
of the sixteen bytes it read, by the record layout of spec §6 (`IStream` and
the record declaration are not among the sources). -/
def decodeElement : List UInt8 → Option rct_g1_element_32bit
  | [o0, o1, o2, o3, w0, w1, h0, h1, x0, x1, y0, y1, f0, f1, z0, z1] =>
    some { offset := le32 o0 o1 o2 o3, width := le16s w0 w1, height := le16s h0 h1,
           x_offset := le16s x0 x1, y_offset := le16s y0 y1, flags := le16 f0 f1,
           zoomed_offset := le16s z0 z1 }
  | _ => none

/-! ## The stream abstraction -/

/-- Modelled from the spec: the seekable byte stream `IStream` (its
declaration, `core/IStream.hpp`, is not among the sources).  A stream is its
bytes and a cursor; a read past the end raises the stream's error (spec §7).
`reads` is the record a read-counting stub keeps (spec §8): position and
length of every read requested so far, latest first. -/
structure IStream where
  data : List UInt8
  position : Nat
  reads : List (Nat × Nat)
  deriving DecidableEq, Repr

namespace IStream

/-- A stream over `bytes`, cursor at the start, nothing read yet. -/
def ofBytes (bytes : List UInt8) : IStream :=
  { data := bytes, position := 0, reads := [] }

/-- Modelled from the spec: the length reported by `IStream::GetLength()`. -/
def GetLength (s : IStream) : Nat := s.data.length

/-- Modelled from the spec: the cursor reported by `IStream::GetPosition()`. -/
def GetPosition (s : IStream) : Nat := s.position

/-- Modelled from the spec: the effect of `IStream::SetPosition(p)`. -/
def SetPosition (s : IStream) (p : Nat) : IStream := { s with position := p }

/-- Modelled from the spec: the call `IStream::Read(buffer, len)`: the `len`
bytes at the cursor, which then moves past them; a read past the end raises
(spec §7) and moves nothing.  Either way the request is recorded. -/
def Read (s : IStream) (len : Nat) : Except GxError (List UInt8) × IStream :=
  if s.position + len ≤ s.data.length then
    (.ok ((s.data.drop s.position).take len),
      { s with position := s.position + len, reads := (s.position, len) :: s.reads })
  else
    (.error .io_exception, { s with reads := (s.position, len) :: s.reads })

/-- Modelled from the spec: the call `IStream::ReadValue<uint32_t>()`. -/
def ReadValueUInt32 (s : IStream) : Except GxError Nat × IStream :=
  match s.Read 4 with
  | (.ok bytes, s1) =>
    match decodeUInt32 bytes with
    | some v => (.ok v, s1)
    | none => (.error .io_exception, s1)
  | (.error e, s1) => (.error e, s1)

/-- Modelled from the spec: the call
`IStream::ReadValue<rct_g1_element_32bit>()`. -/
def ReadValueElement (s : IStream) : Except GxError rct_g1_element_32bit × IStream :=
  match s.Read sizeof_rct_g1_element_32bit with
  | (.ok bytes, s1) =>
    match decodeElement bytes with
    | some v => (.ok v, s1)
    | none => (.error .io_exception, s1)
  | (.error e, s1) => (.error e, s1)

/-- Modelled from the spec: the call `IStream::ReadArray<uint8_t>(len)`: a
fresh buffer with the bytes read. -/
def ReadArray (s : IStream) (len : Nat) : Except GxError (List UInt8) × IStream :=
  s.Read len

end IStream

/-! ## The eager container -/

/-- Modelled from the spec: the class `GxFile` (its declaration, `Gx.h`, is
not among the sources): the resident element table `_elements` and pixel blob
`_data`, the two vectors `Gx.cpp` resizes and fills.  `dataStart` is the
address of the blob's first byte (`_data.data()`), against which the element
offsets are rebased. -/
structure GxFile where
  _elements : List (rct_g1_element Nat)
  _data : List UInt8
  dataStart : Nat
  deriving DecidableEq, Repr

namespace GxFile

/-- The conversion of a disk record in the constructor's first loop
(`dst.offset = src.offset; dst.width = src.width; ...`). -/
def convertElement (src : rct_g1_element_32bit) : rct_g1_element Nat :=
  { offset := src.offset, width := src.width, height := src.height,
    x_offset := src.x_offset, y_offset := src.y_offset, flags := src.flags,
    zoomed_offset := src.zoomed_offset }

/-- The constructor's first loop: `numImages` records read one after the
other and converted. -/
def readElements : Nat → IStream → Except GxError (List (rct_g1_element Nat)) × IStream
  | 0, s => (.ok [], s)
  | n + 1, s =>
    match s.ReadValueElement with
    | (.ok src, s1) =>
      match readElements n s1 with
      | (.ok rest, s2) => (.ok (convertElement src :: rest), s2)
      | (.error e, s2) => (.error e, s2)
    | (.error e, s1) => (.error e, s1)

/-- The constructor's last loop: `dst.offset += dataStart`. -/
def fixPointers (dataStart : Nat) (elements : List (rct_g1_element Nat)) :
    List (rct_g1_element Nat) :=
  elements.map fun dst => { dst with offset := dst.offset + dataStart }

/-- The constructor `GxFile::GxFile(IStream&)`.  `dataStart` is the address
at which the blob is allocated. -/
def ofStream (dataStart : Nat) (stream : IStream) : Except GxError GxFile × IStream :=
  match stream.ReadValueUInt32 with
  | (.ok numImages, s1) =>
    match s1.ReadValueUInt32 with
    | (.ok dataSize, s2) =>
      match readElements numImages s2 with
      | (.ok elements, s3) =>
        match s3.Read dataSize with
        | (.ok data, s4) =>
          (.ok { _elements := fixPointers dataStart elements, _data := data,
                 dataStart := dataStart }, s4)
        | (.error e, s4) => (.error e, s4)
      | (.error e, s3) => (.error e, s3)
    | (.error e, s2) => (.error e, s2)
  | (.error e, s1) => (.error e, s1)

/-- The method `GxFile::GetCount`. -/
def GetCount (f : GxFile) : Nat := f._elements.length

/-- The call `std::memcpy(dst, src, size)` with `src` an address into the
resident blob: the `size` bytes at that address, if they all lie in the blob. -/
def memcpyFrom (f : GxFile) (src size : Nat) : Except GxError (List UInt8) :=
  if f.dataStart ≤ src ∧ src + size ≤ f.dataStart + f._data.length then
    .ok ((f._data.drop (src - f.dataStart)).take size)
  else
    .error .out_of_bounds

/-- The function `DuplicateImageData`.  `g1_calculate_data_size` is the size
function of the drawing engine, which is not among the sources. -/
def DuplicateImageData (g1_calculate_data_size : rct_g1_element Nat → Nat) (f : GxFile)
    (src : rct_g1_element Nat) : Except GxError (rct_g1_element (Option (List UInt8))) :=
  match f.memcpyFrom src.offset (g1_calculate_data_size src) with
  | .ok buffer =>
    .ok { offset := some buffer, width := src.width, height := src.height,
          x_offset := src.x_offset, y_offset := src.y_offset, flags := src.flags,
          zoomed_offset := src.zoomed_offset }
  | .error e => .error e

/-- The method `GxFile::GetImage`: a view of element `i`, or null. -/
def GetImage (f : GxFile) (i : Nat) : Except GxError (Option (rct_g1_element Nat)) :=
  if h : i < f._elements.length then .ok (some f._elements[i]) else .ok none

/-- The method `GxFile::GetImageCopy`. -/
def GetImageCopy (g1_calculate_data_size : rct_g1_element Nat → Nat) (f : GxFile) (i : Nat) :
    Except GxError (rct_g1_element (Option (List UInt8))) :=
  if h : i < f._elements.length then
    DuplicateImageData g1_calculate_data_size f f._elements[i]
  else .ok rct_g1_element.zeroed

/-- The method `GxFile::GetNextZoomImage`.  `G1_FLAG_HAS_ZOOM_SPRITE` is the
flag mask of the drawing engine, which is not among the sources.  The
subscript `_elements[i]` is unchecked. -/
def GetNextZoomImage (G1_FLAG_HAS_ZOOM_SPRITE : Nat) (f : GxFile) (i : Nat) :
    Except GxError (Option Nat) :=
  match f._elements[i]? with
  | some element =>
    if hasFlag element.flags G1_FLAG_HAS_ZOOM_SPRITE then
      .ok (some (wrapSub 64 i element.zoomed_offset))
    else .ok none
  | none => .error .out_of_bounds

/-- The walk down the zoom chain a caller makes from index `i`:
`GetNextZoomImage` is asked for the sibling of the index reached until it
answers none.  `fuel` bounds the number of calls; the result is the list of
the indices visited, or none when the fuel ran out or a call failed. -/
def zoomChain (G1_FLAG_HAS_ZOOM_SPRITE : Nat) (f : GxFile) : Nat → Nat → Option (List Nat)
  | 0, _ => none
  | fuel + 1, i =>
    match f.GetNextZoomImage G1_FLAG_HAS_ZOOM_SPRITE i with
    | .ok none => some [i]
    | .ok (some j) => (zoomChain G1_FLAG_HAS_ZOOM_SPRITE f fuel j).map fun rest => i :: rest
    | .error _ => none

end GxFile

/-! ## The streaming container -/

/-- The stream handles of a `GxStream`.  The one-stream constructor sets
`_stream` and leaves the other two null; the two-stream constructor sets
`_streamElements` and `_streamData` and leaves `_stream` null.  Both
dereference what they set, so these are the only two shapes. -/
inductive GxStreamHandles where
  | combined (_stream : IStream)
  | separate (_streamElements _streamData : IStream)
  deriving DecidableEq, Repr

/-- Modelled from the spec: the class `GxStream` (its declaration, `Gx.h`, is
not among the sources).  `_count`, `_dataSize`, `_elementStart`, `_dataStart`
receive 64-bit stream lengths and positions unnarrowed; `_cachedIndex` is
assigned through `static_cast<uint32_t>`; `_cachedElement` is assigned a disk
record. -/
structure GxStream where
  handles : GxStreamHandles
  _elementStart : Nat
  _dataStart : Nat
  _count : Nat
  _dataSize : Nat
  _cachedIndex : Nat
  _cachedElement : rct_g1_element_32bit
  deriving DecidableEq, Repr

namespace GxStream

/-- The stream `ReadElement` reads from:
`_stream != nullptr ? _stream.get() : _streamElements.get()`. -/
def elementStream (g : GxStream) : IStream :=
  match g.handles with
  | .combined s => s
  | .separate se _ => se

/-- The stream `ReadData` reads from:
`_stream != nullptr ? _stream.get() : _streamData.get()`. -/
def dataStream (g : GxStream) : IStream :=
  match g.handles with
  | .combined s => s
  | .separate _ sd => sd

/-- The container after the stream `ReadElement` uses has moved to `s`. -/
def withElementStream (g : GxStream) (s : IStream) : GxStream :=
  match g.handles with
  | .combined _ => { g with handles := .combined s }
  | .separate _ sd => { g with handles := .separate s sd }

/-- The container after the stream `ReadData` uses has moved to `s`. -/
def withDataStream (g : GxStream) (s : IStream) : GxStream :=
  match g.handles with
  | .combined _ => { g with handles := .combined s }
  | .separate se _ => { g with handles := .separate se s }

/-- Modelled from the spec: the initial `_cachedIndex` (the member
initialisers are in `Gx.h`, not among the sources): the cache starts out
holding no valid index. -/
def noCachedIndex : Nat := 2 ^ 32 - 1

/-- Modelled from the spec: the initial `_cachedElement`, a zeroed record. -/
def noCachedElement : rct_g1_element_32bit :=
  { offset := 0, width := 0, height := 0, x_offset := 0, y_offset := 0, flags := 0,
    zoomed_offset := 0 }

/-- The constructor `GxStream::GxStream(std::unique_ptr<IStream>)`. -/
def ofStream (stream : IStream) : Except GxError GxStream × IStream :=
  match stream.ReadValueUInt32 with
  | (.ok count, s1) =>
    match s1.ReadValueUInt32 with
    | (.ok dataSize, s2) =>
      (.ok { handles := .combined s2,
             _elementStart := s2.GetPosition,
             _dataStart := s2.GetPosition + count * sizeof_rct_g1_element_32bit,
             _count := count, _dataSize := dataSize,
             _cachedIndex := noCachedIndex, _cachedElement := noCachedElement }, s2)
    | (.error e, s2) => (.error e, s2)
  | (.error e, s1) => (.error e, s1)

/-- The constructor
`GxStream::GxStream(std::unique_ptr<IStream>, std::unique_ptr<IStream>)`.  It
assigns neither `_elementStart` nor `_dataStart`; they keep their initial
value, taken to be zero, the start of each stream (the member initialisers
are in `Gx.h`, not among the sources). -/
def ofStreams (streamElements streamData : IStream) : GxStream :=
  { handles := .separate streamElements streamData,
    _elementStart := 0, _dataStart := 0,
    _count := streamElements.GetLength / sizeof_rct_g1_element_32bit,
    _dataSize := streamData.GetLength,
    _cachedIndex := noCachedIndex, _cachedElement := noCachedElement }

/-- The method `GxStream::GetCount`. -/
def GetCount (g : GxStream) : Nat := g._count

/-- The method `GxStream::GetImage`. -/
def GetImage (_g : GxStream) (_i : Nat) : Except GxError (Option (rct_g1_element Nat)) :=
  .error (.runtime_error "Invalid operation")

/-- The method `GxStream::ReadElement`. -/
def ReadElement (g : GxStream) (i : Nat) : Except GxError rct_g1_element_32bit × GxStream :=
  let stream := g.elementStream
  let r := (stream.SetPosition (g._elementStart + i * sizeof_rct_g1_element_32bit)).ReadValueElement
  (r.1, g.withElementStream r.2)

/-- The method `GxStream::ReadData`. -/
def ReadData (g : GxStream) (offset len : Nat) : Except GxError (List UInt8) × GxStream :=
  let stream := g.dataStream
  let r := (stream.SetPosition (g._dataStart + offset)).ReadArray len
  (r.1, g.withDataStream r.2)

/-- The tail of `GxStream::GetImageCopy`, from "Read the data" on: the slice
is read, the result filled in from `src`, and the cache set to `(i, src)`. -/
def copySlice (g : GxStream) (i : Nat) (src : rct_g1_element_32bit) (dataLength : Nat) :
    Except GxError (rct_g1_element (Option (List UInt8))) × GxStream :=
  match g.ReadData src.offset dataLength with
  | (.ok data, g1) =>
    (.ok { offset := some data, width := src.width, height := src.height,
           x_offset := src.x_offset, y_offset := src.y_offset, flags := src.flags,
           zoomed_offset := src.zoomed_offset },
      { g1 with _cachedIndex := toUInt32 i, _cachedElement := src })
  | (.error e, g1) => (.error e, g1)

/-- The method `GxStream::GetImageCopy`. -/
def GetImageCopy (g : GxStream) (i : Nat) :
    Except GxError (rct_g1_element (Option (List UInt8))) × GxStream :=
  if i < g._count then
    match g.ReadElement i with
    | (.ok src, g1) =>
      if i < g1._count - 1 then
        match g1.ReadElement (i + 1) with
        | (.ok next, g2) => g2.copySlice i src (wrapSub 32 next.offset src.offset)
        | (.error e, g2) => (.error e, g2)
      else
        g1.copySlice i src (wrapSub 64 g1._dataSize src.offset)
    | (.error e, g1) => (.error e, g1)
  else
    (.ok rct_g1_element.zeroed, g)

/-- The method `GxStream::GetNextZoomImage`. -/
def GetNextZoomImage (G1_FLAG_HAS_ZOOM_SPRITE : Nat) (g : GxStream) (i : Nat) :
    Except GxError (Option Nat) × GxStream :=
  let zoom (element : rct_g1_element_32bit) : Option Nat :=
    if hasFlag element.flags G1_FLAG_HAS_ZOOM_SPRITE then
      some (wrapSub 64 i element.zoomed_offset)
    else none
  if g._cachedIndex ≠ i then
    match g.ReadElement i with
    | (.ok element, g1) =>
      (.ok (zoom element), { g1 with _cachedElement := element, _cachedIndex := toUInt32 i })
    | (.error e, g1) => (.error e, g1)
  else
    (.ok (zoom g._cachedElement), g)

/-- The disk record stored at index `i` of the element table: the sixteen
bytes of the element stream at `_elementStart + i * 16`, decoded; none when
the stream ends before them. -/
def record (g : GxStream) (i : Nat) : Option rct_g1_element_32bit :=
  decodeElement ((g.elementStream.data.drop
    (g._elementStart + i * sizeof_rct_g1_element_32bit)).take sizeof_rct_g1_element_32bit)

/-- The slice length `GxStream::GetImageCopy(i)` arrives at, from the record
`src` at index `i` and the record `next` at index `i + 1`. -/
def dataLength (g : GxStream) (i : Nat) (src next : rct_g1_element_32bit) : Nat :=
  adjacencyLength g._count g._dataSize i src next

/-- The two containers hold the same backing store: the same count, data
size and table positions, over streams with the same bytes. -/
def SameStore (g g1 : GxStream) : Prop :=
  g1._count = g._count ∧ g1._dataSize = g._dataSize ∧
  g1._elementStart = g._elementStart ∧ g1._dataStart = g._dataStart ∧
  g1.elementStream.data = g.elementStream.data ∧ g1.dataStream.data = g.dataStream.data

/-- The cache is coherent: a cached index below `count` comes with the record
stored at that index. -/
def CacheCoherent (g : GxStream) : Prop :=
  ∀ i, i < g._count → g._cachedIndex = i → g.record i = some g._cachedElement

/-- The zoom rule of `GetNextZoomImage` applied to a record at index `i`. -/
def zoomRule (G1_FLAG_HAS_ZOOM_SPRITE i : Nat) (element : rct_g1_element_32bit) :
    Option Nat :=
  if hasFlag element.flags G1_FLAG_HAS_ZOOM_SPRITE then
    some (wrapSub 64 i element.zoomed_offset)
  else none

end GxStream

/-- A call a client makes on a streaming container: `GetImageCopy(i)` or
`GetNextZoomImage(i)`. -/
inductive GxCall where
  | copy (i : Nat)
  | zoom (i : Nat)
  deriving DecidableEq, Repr

/-- The index a call is made with. -/
def GxCall.index : GxCall → Nat
  | .copy i => i
  | .zoom i => i

/-- The container after one call, whatever the call returned. -/
def GxStream.step (G1_FLAG_HAS_ZOOM_SPRITE : Nat) (g : GxStream) : GxCall → GxStream
  | .copy i => (g.GetImageCopy i).2
  | .zoom i => (g.GetNextZoomImage G1_FLAG_HAS_ZOOM_SPRITE i).2

/-- The container after a sequence of calls, made in order. -/
def GxStream.run (G1_FLAG_HAS_ZOOM_SPRITE : Nat) (g : GxStream) (calls : List GxCall) :
    GxStream :=
  calls.foldl (GxStream.step G1_FLAG_HAS_ZOOM_SPRITE) g

/-! ## The image object (`src/openrct2/object/ImageObject.cpp`) -/

/-- Modelled from the spec: the class `ImageObject`, reduced to its one member
`_baseImageIndex`.  The type `ImageIndex` is declared outside the sources; it
is taken to be the 32-bit unsigned type of the `uint32_t index` it is added
to.  The constant `ImageIndexUndefined`, also declared outside the sources, is
a parameter of the operations. -/
structure ImageObject where
  _baseImageIndex : Nat
  deriving DecidableEq, Repr

namespace ImageObject

/-- A fresh object: `ImageIndex _baseImageIndex = ImageIndexUndefined;`. -/
def fresh (ImageIndexUndefined : Nat) : ImageObject :=
  { _baseImageIndex := ImageIndexUndefined }

/-- The method `ImageObject::Load`; `loadImages` is the value `LoadImages()`
returns. -/
def Load (_obj : ImageObject) (loadImages : Nat) : ImageObject :=
  { _baseImageIndex := loadImages }

/-- The method `ImageObject::Unload`. -/
def Unload (ImageIndexUndefined : Nat) (_obj : ImageObject) : ImageObject :=
  { _baseImageIndex := ImageIndexUndefined }

/-- The method `ImageObject::GetImage`. -/
def GetImage (ImageIndexUndefined : Nat) (obj : ImageObject) (index : Nat) : Nat :=
  if obj._baseImageIndex = ImageIndexUndefined then ImageIndexUndefined
  else (obj._baseImageIndex + index) % 2 ^ 32

end ImageObject

/-! ## Platform services (`src/openrct2/platform/Platform.NT6.cpp`, `Platform.Win32.cpp`) -/

/-- Modelled from the spec: the language identifiers `LANGUAGE_*`, an
enumeration declared outside the sources.  Only the identity of an enumerator
matters here, not its number; `LANGUAGE_ARABIC` is the one the locale table
names in a comment and replaces by `LANGUAGE_UNDEFINED`. -/
inductive Language where
  | LANGUAGE_UNDEFINED
  | LANGUAGE_ARABIC
  | LANGUAGE_CATALAN
  | LANGUAGE_CHINESE_SIMPLIFIED
  | LANGUAGE_CHINESE_TRADITIONAL
  | LANGUAGE_CZECH
  | LANGUAGE_DANISH
  | LANGUAGE_GERMAN
  | LANGUAGE_ENGLISH_UK
  | LANGUAGE_ENGLISH_US
  | LANGUAGE_ESPERANTO
  | LANGUAGE_SPANISH
  | LANGUAGE_FRENCH
  | LANGUAGE_FRENCH_CA
  | LANGUAGE_ITALIAN
  | LANGUAGE_JAPANESE
  | LANGUAGE_KOREAN
  | LANGUAGE_HUNGARIAN
  | LANGUAGE_DUTCH
  | LANGUAGE_NORWEGIAN
  | LANGUAGE_POLISH
  | LANGUAGE_PORTUGUESE_BR
  | LANGUAGE_RUSSIAN
  | LANGUAGE_FINNISH
  | LANGUAGE_SWEDISH
  | LANGUAGE_TURKISH
  | LANGUAGE_UKRAINIAN
  | LANGUAGE_VIETNAMESE
  deriving DecidableEq, Repr

namespace Platform

open Language

/-- The table `supportedLocales` of `GetLocaleLanguage`, in source order. -/
def supportedLocales : List (String × Language) :=
  [ ("ar", LANGUAGE_UNDEFINED),
    ("ca", LANGUAGE_CATALAN),
    ("zh-Hans", LANGUAGE_CHINESE_SIMPLIFIED),
    ("zh-Hant", LANGUAGE_CHINESE_TRADITIONAL),
    ("cs", LANGUAGE_CZECH),
    ("da", LANGUAGE_DANISH),
    ("de", LANGUAGE_GERMAN),
    ("en-GB", LANGUAGE_ENGLISH_UK),
    ("en-US", LANGUAGE_ENGLISH_US),
    ("eo", LANGUAGE_ESPERANTO),
    ("es", LANGUAGE_SPANISH),
    ("fr", LANGUAGE_FRENCH),
    ("fr-CA", LANGUAGE_FRENCH_CA),
    ("it", LANGUAGE_ITALIAN),
    ("ja", LANGUAGE_JAPANESE),
    ("ko", LANGUAGE_KOREAN),
    ("hu", LANGUAGE_HUNGARIAN),
    ("nl", LANGUAGE_DUTCH),
    ("no", LANGUAGE_NORWEGIAN),
    ("pl", LANGUAGE_POLISH),
    ("pt-BR", LANGUAGE_PORTUGUESE_BR),
    ("ru", LANGUAGE_RUSSIAN),
    ("fi", LANGUAGE_FINNISH),
    ("sv", LANGUAGE_SWEDISH),
    ("tr", LANGUAGE_TURKISH),
    ("uk", LANGUAGE_UKRAINIAN),
    ("vi", LANGUAGE_VIETNAMESE) ]

/-- The test `wcsncmp(langCode, tag.data(), tag.length()) == 0` on a
null-terminated `langCode` and a tag without a null character: the first
`tag.length()` characters of `langCode` are there and are those of the tag. -/
def wcsncmpIsZero (langCode tag : String) : Bool :=
  langCode.toList.take tag.length == tag.toList

/-- The function `Platform::GetLocaleLanguage`.  `localeName` is what
`GetLocaleInfoEx(LOCALE_NAME_USER_DEFAULT, LOCALE_SNAME, ...)` wrote to
`langCode`, or none when it returned 0. -/
def GetLocaleLanguage (localeName : Option String) : Language :=
  match localeName with
  | none => LANGUAGE_UNDEFINED
  | some langCode =>
    match supportedLocales.find? fun locale => wcsncmpIsZero langCode locale.1 with
    | some locale => locale.2
    | none => LANGUAGE_UNDEFINED

/-- What the calls into `ntdll.dll` made by `IsOSVersionAtLeast` yield:
whether `GetModuleHandleW` found the module, whether `GetProcAddress` found
`RtlGetVersion`, the status that function returns, and the three fields of
`RTL_OSVERSIONINFOW` it fills in. -/
structure OSVersionQuery where
  hModule : Bool
  fn : Bool
  status : Int
  dwMajorVersion : Nat
  dwMinorVersion : Nat
  dwBuildNumber : Nat
  deriving DecidableEq, Repr

/-- The function `Platform::IsOSVersionAtLeast`. -/
def IsOSVersionAtLeast (os : OSVersionQuery) (major minor build : Nat) : Bool :=
  if os.hModule then
    if os.fn then
      if os.status = 0 then
        if os.dwMajorVersion > major
            ∨ (os.dwMajorVersion = major
              ∧ (os.dwMinorVersion > minor
                ∨ (os.dwMinorVersion = minor ∧ os.dwBuildNumber ≥ build))) then
          true
        else false
      else false
    else false
  else false

/-- The function `Platform::HasANSIColourSupport`. -/
def HasANSIColourSupport (os : OSVersionQuery) : Bool :=
  IsOSVersionAtLeast os 10 0 10586

/-- The 64-bit value `GetDatetimeNowUTC` assembles from the two 32-bit halves
of a `FILETIME`. -/
def fileTime64 (dwLowDateTime dwHighDateTime : Nat) : Nat :=
  (dwHighDateTime % 2 ^ 32) <<< 32 ||| (dwLowDateTime % 2 ^ 32)

/-- The function `Platform::GetDatetimeNowUTC`.  The two arguments are the
fields of the `FILETIME` that `GetSystemTimeAsFileTime` filled in; the
subtraction is the one of `uint64_t`, and the result type `datetime64`,
declared outside the sources, is read as that 64-bit unsigned value. -/
def GetDatetimeNowUTC (dwLowDateTime dwHighDateTime : Nat) : Nat :=
  wrapSub 64 (fileTime64 dwLowDateTime dwHighDateTime) 504911232000000000

/-- A Windows 10 system at build 19045. -/
def windows10 : OSVersionQuery :=
  { hModule := true, fn := true, status := 0, dwMajorVersion := 10, dwMinorVersion := 0,
    dwBuildNumber := 19045 }

/-- The first Windows 10 release, build 10240. -/
def windows10rtm : OSVersionQuery :=
  { hModule := true, fn := true, status := 0, dwMajorVersion := 10, dwMinorVersion := 0,
    dwBuildNumber := 10240 }

/-- A Windows 8.1 system, version 6.3 build 9600. -/
def windows81 : OSVersionQuery :=
  { hModule := true, fn := true, status := 0, dwMajorVersion := 6, dwMinorVersion := 3,
    dwBuildNumber := 9600 }

/-- A system on which `RtlGetVersion` is found but returns a failure status,
leaving the zero-initialised `rovi` as it was. -/
def versionQueryFailed : OSVersionQuery :=
  { hModule := true, fn := true, status := -1073741823, dwMajorVersion := 0,
    dwMinorVersion := 0, dwBuildNumber := 0 }

end Platform

/-! ## Container images and the two routes to a copy -/

/-- A container image (spec §3): the header fields `count` and `dataSize`,
then `count` sixteen-byte records, then `dataSize` blob bytes. -/
def IsContainerImage (bytes : List UInt8) (count dataSize : Nat) : Prop :=
  decodeUInt32 (bytes.take 4) = some count ∧
  decodeUInt32 ((bytes.drop 4).take 4) = some dataSize ∧
  bytes.length = 8 + count * 16 + dataSize

/-- The disk record at index `i` of the element table of a container image. -/
def imageRecord (bytes : List UInt8) (i : Nat) : Option rct_g1_element_32bit :=
  decodeElement ((bytes.drop (8 + i * 16)).take 16)

/-- The eager route: a `GxFile` is built from `bytes`, its blob placed at
address `dataStart`, and asked for `GetImageCopy(i)`. -/
def eagerCopyOf (g1_calculate_data_size : rct_g1_element Nat → Nat) (dataStart : Nat)
    (bytes : List UInt8) (i : Nat) : Except GxError (rct_g1_element (Option (List UInt8))) :=
  match (GxFile.ofStream dataStart (IStream.ofBytes bytes)).1 with
  | .ok f => f.GetImageCopy g1_calculate_data_size i
  | .error e => .error e

/-- The streaming route: a `GxStream` is built from `bytes` as one combined
stream and asked for `GetImageCopy(i)`. -/
def streamCopyOf (bytes : List UInt8) (i : Nat) :
    Except GxError (rct_g1_element (Option (List UInt8))) :=
  match (GxStream.ofStream (IStream.ofBytes bytes)).1 with
  | .ok g => (g.GetImageCopy i).1
  | .error e => .error e

/-! ## Concrete containers -/

/-- The size of an uncompressed bitmap, width times height: a size function
to run the eager container with. -/
def rawDataSize (g1 : rct_g1_element Nat) : Nat := (g1.width * g1.height).toNat

/-- An eager container of three 2x2 sprites over a 12-byte blob at address
4096; element 2 carries flag bit 4 and `zoomed_offset = 2`. -/
def threeSprites : GxFile :=
  { _elements :=
      [ { offset := 4096, width := 2, height := 2, x_offset := 0, y_offset := 0, flags := 0,
          zoomed_offset := 0 },
        { offset := 4100, width := 2, height := 2, x_offset := -1, y_offset := 3, flags := 1,
          zoomed_offset := 0 },
        { offset := 4104, width := 2, height := 2, x_offset := 0, y_offset := 0, flags := 16,
          zoomed_offset := 2 } ],
    _data := [1, 2, 3, 4, 5, 6, 7, 8, 9, 10, 11, 12],
    dataStart := 4096 }

/-- An eager container of one 2x1 sprite at disk offset 1 of a two-byte blob
at address 4096: the offset lies in the blob, the second pixel byte does
not. -/
def overrun : GxFile :=
  { _elements :=
      [ { offset := 4097, width := 2, height := 1, x_offset := 0, y_offset := 0, flags := 0,
          zoomed_offset := 0 } ],
    _data := [7, 9],
    dataStart := 4096 }

/-- A streaming container over two empty streams: no element at all. -/
def emptyStreams : GxStream :=
  GxStream.ofStreams (IStream.ofBytes []) (IStream.ofBytes [])

/-- The sixteen bytes of the disk record of a square sprite of the given side
at blob offset `offset`, flags and zoomed offset zero. -/
def squareRecordBytes (offset side : UInt8) : List UInt8 :=
  [offset, 0, 0, 0, side, 0, side, 0, 0, 0, 0, 0, 0, 0, 0, 0]

/-- The record `squareRecordBytes offset side` decodes to. -/
def squareRecord (offset : Nat) (side : Int) : rct_g1_element_32bit :=
  { offset := offset, width := side, height := side, x_offset := 0, y_offset := 0,
    flags := 0, zoomed_offset := 0 }

/-- A container image with `count = 2`, `dataSize = 25`, element offsets 0 and
10, and a blob holding the bytes 0, 1, ..., 24. -/
def twoSlicesBytes : List UInt8 :=
  [2, 0, 0, 0, 25, 0, 0, 0] ++ squareRecordBytes 0 1 ++ squareRecordBytes 10 1 ++
    [0, 1, 2, 3, 4, 5, 6, 7, 8, 9, 10, 11, 12, 13, 14, 15, 16, 17, 18, 19, 20, 21, 22, 23, 24]

/-- The streaming container built from `twoSlicesBytes` as one combined
stream. -/
def twoSlices : GxStream :=
  match (GxStream.ofStream (IStream.ofBytes twoSlicesBytes)).1 with
  | .ok g => g
  | .error _ => emptyStreams

/-- A container image of one 1x1 sprite at offset 0 over a one-byte blob. -/
def twinA : List UInt8 := [1, 0, 0, 0, 1, 0, 0, 0] ++ squareRecordBytes 0 1 ++ [5]

/-- The image `twinA` with a two-byte blob: same record, `dataSize = 2`. -/
def twinB : List UInt8 := [1, 0, 0, 0, 2, 0, 0, 0] ++ squareRecordBytes 0 1 ++ [5, 6]

/-- The copy of element 0 the eager container hands out on `twinB`, run with
the bitmap size rule. -/
def twinBEager : rct_g1_element (Option (List UInt8)) :=
  { offset := some [5], width := 1, height := 1, x_offset := 0, y_offset := 0, flags := 0,
    zoomed_offset := 0 }

/-- The copy of element 0 the streaming container hands out on `twinB`. -/
def twinBStreamed : rct_g1_element (Option (List UInt8)) :=
  { offset := some [5, 6], width := 1, height := 1, x_offset := 0, y_offset := 0, flags := 0,
    zoomed_offset := 0 }

/-- The sixteen bytes of the disk record of a square sprite with the given
blob offset, side, flags and zoomed offset, each below 256. -/
def recordBytes (offset side flags zoomed : UInt8) : List UInt8 :=
  [offset, 0, 0, 0, side, 0, side, 0, 0, 0, 0, 0, flags, 0, zoomed, 0]

/-- A streaming container over two streams: three 1x1 sprites at offsets 0, 1,
2 of a three-byte data stream, the third with flag bit 4 set and
`zoomed_offset = 2`. -/
def zoomStreams : GxStream :=
  GxStream.ofStreams
    (IStream.ofBytes (recordBytes 0 1 0 0 ++ recordBytes 1 1 0 0 ++ recordBytes 2 1 16 2))
    (IStream.ofBytes [7, 8, 9])

/-- The third record of `zoomStreams`. -/
def zoomRecord : rct_g1_element_32bit :=
  { offset := 2, width := 1, height := 1, x_offset := 0, y_offset := 0, flags := 16,
    zoomed_offset := 2 }

/-- A streaming container over a combined stream whose blob is cut short: the
header announces one element and four data bytes, two are there. -/
def truncatedBlob : GxStream :=
  match (GxStream.ofStream (IStream.ofBytes
    ([1, 0, 0, 0, 4, 0, 0, 0] ++ squareRecordBytes 0 1 ++ [1, 2]))).1 with
  | .ok g => g
  | .error _ => emptyStreams

/-- A streaming container over a combined stream whose element table is cut
short: the header announces two elements, one record is there. -/
def truncatedTable : GxStream :=
  match (GxStream.ofStream (IStream.ofBytes
    ([2, 0, 0, 0, 0, 0, 0, 0] ++ squareRecordBytes 0 1))).1 with
  | .ok g => g
  | .error _ => emptyStreams

/-- A container image of one sprite whose record holds negative 16-bit fields:
`x_offset = -1` (bytes FF FF) and `zoomed_offset = -2` (bytes FE FF), flag bit
4 set, over the one-byte blob `[9]`. -/
def signedImage : List UInt8 :=
  [1, 0, 0, 0, 1, 0, 0, 0] ++
    [0, 0, 0, 0, 1, 0, 1, 0, 255, 255, 0, 0, 16, 0, 254, 255] ++ [9]

/-- A container image whose only record points past the blob: disk offset 5,
`dataSize = 1`. -/
def strayImage : List UInt8 := [1, 0, 0, 0, 1, 0, 0, 0] ++ squareRecordBytes 5 1 ++ [9]

/-- The eager container the constructor builds from `strayImage` with the blob
at address 4096. -/
def strayFile : GxFile :=
  { _elements :=
      [ { offset := 4101, width := 1, height := 1, x_offset := 0, y_offset := 0, flags := 0,
          zoomed_offset := 0 } ],
    _data := [9],
    dataStart := 4096 }

/-- The records of `twoSlices` by index: offset 0 at index 0, offset 10
after. -/
def twoSlicesRecord (i : Nat) : rct_g1_element_32bit :=
  if i = 0 then squareRecord 0 1 else squareRecord 10 1

/-- An eager container of four 1x1 sprites over a four-byte blob at address
4096, with a zoom chain 3 → 1 → 0: element 3 carries flag bit 4 and
`zoomed_offset = 2`, element 1 carries it and `zoomed_offset = 1`. -/
def zoomLadder : GxFile :=
  { _elements :=
      [ { offset := 4096, width := 1, height := 1, x_offset := 0, y_offset := 0, flags := 0,
          zoomed_offset := 0 },
        { offset := 4097, width := 1, height := 1, x_offset := 0, y_offset := 0, flags := 16,
          zoomed_offset := 1 },
        { offset := 4098, width := 1, height := 1, x_offset := 0, y_offset := 0, flags := 0,
          zoomed_offset := 7 },
        { offset := 4099, width := 1, height := 1, x_offset := 0, y_offset := 0, flags := 16,
          zoomed_offset := 2 } ],
    _data := [1, 2, 3, 4],
    dataStart := 4096 }

/-- A streaming container over two streams: an element stream of two records
(offsets 0 and 10) followed by five stray bytes, and a data stream of 25
bytes. -/
def raggedStreams : GxStream :=
  GxStream.ofStreams
    (IStream.ofBytes (squareRecordBytes 0 1 ++ squareRecordBytes 10 1 ++ [1, 2, 3, 4, 5]))
    (IStream.ofBytes
      [0, 1, 2, 3, 4, 5, 6, 7, 8, 9, 10, 11, 12, 13, 14, 15, 16, 17, 18, 19, 20, 21, 22, 23,
        24])

/-- A container image of two 2x2 sprites stored back to back: offsets 0 and 4
over an 8-byte blob. -/
def packedBytes : List UInt8 :=
  [2, 0, 0, 0, 8, 0, 0, 0] ++ squareRecordBytes 0 2 ++ squareRecordBytes 4 2 ++
    [11, 12, 13, 14, 21, 22, 23, 24]

/-! ## The eager accessors -/

theorem GxFile.memcpyFrom_ok (f : GxFile) (src size : Nat) (hlo : f.dataStart ≤ src)
    (hhi : src - f.dataStart + size ≤ f._data.length) :
    f.memcpyFrom src size = .ok ((f._data.drop (src - f.dataStart)).take size) := by
  have h : f.dataStart ≤ src ∧ src + size ≤ f.dataStart + f._data.length := ⟨hlo, by omega⟩
  simp only [GxFile.memcpyFrom, h, and_self, if_true]

theorem List.length_take_drop_of_le {α : Type} (l : List α) (a n : Nat)
    (h : a + n ≤ l.length) : ((l.drop a).take n).length = n := by
  simp only [List.length_take, List.length_drop]
  omega

/-- The copy the eager container hands out for a stored element whose slice
lies in the blob. -/
theorem GxFile.GetImageCopy_eq (g1_calculate_data_size : rct_g1_element Nat → Nat)
    (f : GxFile) (i : Nat) (element : rct_g1_element Nat)
    (hel : f._elements[i]? = some element) (hlo : f.dataStart ≤ element.offset)
    (hhi : element.offset - f.dataStart + g1_calculate_data_size element ≤ f._data.length) :
    f.GetImageCopy g1_calculate_data_size i =
      .ok { offset := some ((f._data.drop (element.offset - f.dataStart)).take
                      (g1_calculate_data_size element)),
            width := element.width, height := element.height,
            x_offset := element.x_offset, y_offset := element.y_offset,
            flags := element.flags, zoomed_offset := element.zoomed_offset } := by
  have hi : i < f._elements.length := by
    by_contra hcon
    rw [List.getElem?_eq_none (Nat.not_lt.mp hcon)] at hel
    exact absurd hel (by simp)
  have hget : f._elements[i] = element := by
    rw [List.getElem?_eq_getElem hi] at hel
    exact Option.some.inj hel
  simp only [GxFile.GetImageCopy, hi, dif_pos, hget, GxFile.DuplicateImageData,
    GxFile.memcpyFrom_ok f _ _ hlo hhi]

/-- C1, refuted as stated: in `overrun`, element 0 is a 2x1 bitmap (two bytes
by the bitmap size rule) at disk offset 1 of a two-byte blob.  One blob byte
is left from that offset on, so no two-byte buffer equals the blob from there;
the `memcpy` of `GetImageCopy(0)` runs past the blob. -/
theorem GxFile.GetImageCopy_in_range_counterexample :
    0 < overrun.GetCount ∧
    overrun.GetImageCopy rawDataSize 0 = .error .out_of_bounds ∧
    ¬ ∃ buffer : List UInt8,
        overrun.GetImageCopy rawDataSize 0 =
          .ok { offset := some buffer, width := 2, height := 1, x_offset := 0, y_offset := 0,
                flags := 0, zoomed_offset := 0 } ∧
        buffer.length = 2 ∧ buffer = (overrun._data.drop 1).take 2 := by
  refine ⟨by decide, by rfl, ?_⟩
  rintro ⟨buffer, -, hlen, hbuf⟩
  rw [hbuf] at hlen
  exact absurd hlen (by decide)

/-- C1, amended: for an eager container and an index `i < GetCount()` whose
pixel slice lies inside the resident blob, `GetImageCopy(i)` returns a record
with the width, height, x_offset, y_offset, flags and zoomed_offset of stored
element `i`, and a buffer of exactly `g1_calculate_data_size(element i)`
bytes, equal to the blob bytes from the element's disk offset
(`offset - dataStart`) on. -/
theorem GxFile.GetImageCopy_in_range (g1_calculate_data_size : rct_g1_element Nat → Nat)
    (f : GxFile) (i : Nat) (element : rct_g1_element Nat) (hi : i < f.GetCount)
    (hel : f._elements[i]? = some element) (hlo : f.dataStart ≤ element.offset)
    (hhi : element.offset - f.dataStart + g1_calculate_data_size element ≤ f._data.length) :
    ∃ buffer : List UInt8,
      f.GetImageCopy g1_calculate_data_size i =
        .ok { offset := some buffer, width := element.width, height := element.height,
              x_offset := element.x_offset, y_offset := element.y_offset,
              flags := element.flags, zoomed_offset := element.zoomed_offset } ∧
      buffer.length = g1_calculate_data_size element ∧
      buffer = (f._data.drop (element.offset - f.dataStart)).take
        (g1_calculate_data_size element) := by
  have hi2 : i < f._elements.length := hi
  have hget : f._elements[i] = element := by
    rw [List.getElem?_eq_getElem hi2] at hel
    exact Option.some.inj hel
  refine ⟨_, ?_, List.length_take_drop_of_le _ _ _ hhi, rfl⟩
  simp only [GxFile.GetImageCopy, hi2, dif_pos, hget, GxFile.DuplicateImageData,
    GxFile.memcpyFrom_ok f _ _ hlo hhi]

/-- Witness of C1 amended on `threeSprites`, element 1: a 4-byte buffer, the blob
bytes 4..7. -/
theorem GxFile.GetImageCopy_in_range_witness :
    ∃ buffer : List UInt8,
      threeSprites.GetImageCopy rawDataSize 1 =
        .ok { offset := some buffer, width := 2, height := 2, x_offset := -1, y_offset := 3,
              flags := 1, zoomed_offset := 0 } ∧
      buffer.length = 4 ∧ buffer = [5, 6, 7, 8] :=
  GxFile.GetImageCopy_in_range rawDataSize threeSprites 1
    { offset := 4100, width := 2, height := 2, x_offset := -1, y_offset := 3, flags := 1,
      zoomed_offset := 0 } (by decide) (by decide) (by decide) (by decide)

theorem wrapSub_of_le (w : Nat) (a : Nat) (b : Int) (h0 : 0 ≤ b) (hb : b ≤ a)
    (ha : a < 2 ^ w) : (wrapSub w a b : Int) = a - b := by
  have hpow : ((2 : Int) ^ w) = ((2 ^ w : Nat) : Int) := by push_cast; rfl
  have hlt : (a : Int) - b < (2 : Int) ^ w := by
    rw [hpow]
    have : (a : Int) < ((2 ^ w : Nat) : Int) := by exact_mod_cast ha
    omega
  have hnn : 0 ≤ (a : Int) - b := by omega
  rw [wrapSub, Int.emod_eq_of_lt hnn hlt, Int.toNat_of_nonneg hnn]

/-- C3: for an eager container and an index `i < GetCount()`,
`GetNextZoomImage(i)` returns none when the `G1_FLAG_HAS_ZOOM_SPRITE` bit of
element `i` is unset, and `i - zoomed_offset` when it is set: the value of that
`size_t` subtraction, which is the plain difference whenever
`0 <= zoomed_offset <= i`. -/
theorem GxFile.GetNextZoomImage_rule (G1_FLAG_HAS_ZOOM_SPRITE : Nat) (f : GxFile) (i : Nat)
    (element : rct_g1_element Nat) (hi : i < f.GetCount)
    (hel : f._elements[i]? = some element) :
    (element.flags &&& G1_FLAG_HAS_ZOOM_SPRITE = 0 →
      f.GetNextZoomImage G1_FLAG_HAS_ZOOM_SPRITE i = .ok none) ∧
    (element.flags &&& G1_FLAG_HAS_ZOOM_SPRITE ≠ 0 →
      f.GetNextZoomImage G1_FLAG_HAS_ZOOM_SPRITE i =
        .ok (some (wrapSub 64 i element.zoomed_offset)) ∧
      (0 ≤ element.zoomed_offset → element.zoomed_offset ≤ i → i < 2 ^ 64 →
        (wrapSub 64 i element.zoomed_offset : Int) = i - element.zoomed_offset)) := by
  have _hi : i < f._elements.length := hi
  refine ⟨fun h => ?_, fun h => ⟨?_, fun h0 hz h64 => wrapSub_of_le 64 i _ h0 hz h64⟩⟩
  · simp [GxFile.GetNextZoomImage, hel, hasFlag, h]
  · simp [GxFile.GetNextZoomImage, hel, hasFlag, h]

/-- Witness of C3: in `threeSprites`, element 2 has the flag (bit 4) set and
`zoomed_offset = 2`, so `GetNextZoomImage(2)` is index 0. -/
theorem GxFile.GetNextZoomImage_rule_witness :
    threeSprites.GetNextZoomImage 16 2 = .ok (some 0) ∧
    threeSprites.GetNextZoomImage 16 1 = .ok none :=
  ⟨((GxFile.GetNextZoomImage_rule 16 threeSprites 2
      { offset := 4104, width := 2, height := 2, x_offset := 0, y_offset := 0, flags := 16,
        zoomed_offset := 2 } (by decide) (by decide)).2 (by decide)).1,
   (GxFile.GetNextZoomImage_rule 16 threeSprites 1
      { offset := 4100, width := 2, height := 2, x_offset := -1, y_offset := 3, flags := 1,
        zoomed_offset := 0 } (by decide) (by decide)).1 (by decide)⟩

/-- C4: `GxFile::GetImage(i)` never fails; it returns stored element `i` when
`i < GetCount()` and null when `i >= GetCount()`. -/
theorem GxFile.GetImage_total (f : GxFile) (i : Nat) :
    (∃ view, f.GetImage i = .ok view) ∧
    (i < f.GetCount →
      ∃ element, f._elements[i]? = some element ∧ f.GetImage i = .ok (some element)) ∧
    (f.GetCount ≤ i → f.GetImage i = .ok none) := by
  have hin : ∀ h : i < f._elements.length, f.GetImage i = .ok (some f._elements[i]) := by
    intro h
    simp only [GxFile.GetImage, h, dif_pos]
  have hout : f._elements.length ≤ i → f.GetImage i = .ok none := by
    intro h
    have h2 : ¬ i < f._elements.length := Nat.not_lt.mpr h
    simp only [GxFile.GetImage, h2, dif_neg, not_false_eq_true]
  refine ⟨?_, fun h => ⟨f._elements[i], List.getElem?_eq_getElem h, hin h⟩, hout⟩
  by_cases h : i < f._elements.length
  · exact ⟨_, hin h⟩
  · exact ⟨_, hout (Nat.not_lt.mp h)⟩

/-- Witness of C4 on `threeSprites`: index 1 gives element 1, index 3 gives
null. -/
theorem GxFile.GetImage_total_witness :
    (∃ element, threeSprites._elements[1]? = some element ∧
      threeSprites.GetImage 1 = .ok (some element)) ∧
    threeSprites.GetImage 3 = .ok none :=
  ⟨(GxFile.GetImage_total threeSprites 1).2.1 (by decide),
   (GxFile.GetImage_total threeSprites 3).2.2 (by decide)⟩

/-- C5: for an index `i >= count`, `GetImageCopy(i)` of either variant does not
fail and returns the zeroed record: a null buffer and width, height,
x_offset, y_offset, flags, zoomed_offset all 0.  The streaming container is
left as it was. -/
theorem GetImageCopy_out_of_range (g1_calculate_data_size : rct_g1_element Nat → Nat)
    (f : GxFile) (g : GxStream) (i : Nat) :
    (f.GetCount ≤ i →
      f.GetImageCopy g1_calculate_data_size i =
        .ok { offset := none, width := 0, height := 0, x_offset := 0, y_offset := 0,
              flags := 0, zoomed_offset := 0 }) ∧
    (g.GetCount ≤ i →
      g.GetImageCopy i =
        (.ok { offset := none, width := 0, height := 0, x_offset := 0, y_offset := 0,
               flags := 0, zoomed_offset := 0 }, g)) := by
  constructor
  · intro h
    have h2 : ¬ i < f._elements.length := Nat.not_lt.mpr h
    simp only [GxFile.GetImageCopy, h2, dif_neg, not_false_eq_true, rct_g1_element.zeroed]
  · intro h
    have h2 : ¬ i < g._count := Nat.not_lt.mpr h
    simp only [GxStream.GetImageCopy, h2, if_false, rct_g1_element.zeroed]

/-- Witness of C5: index 3 of the 3-element `threeSprites`, index 0 of the
0-element `emptyStreams`. -/
theorem GetImageCopy_out_of_range_witness :
    threeSprites.GetImageCopy rawDataSize 3 =
        .ok { offset := none, width := 0, height := 0, x_offset := 0, y_offset := 0,
              flags := 0, zoomed_offset := 0 } ∧
    emptyStreams.GetImageCopy 0 =
        (.ok { offset := none, width := 0, height := 0, x_offset := 0, y_offset := 0,
               flags := 0, zoomed_offset := 0 }, emptyStreams) :=
  ⟨(GetImageCopy_out_of_range rawDataSize threeSprites emptyStreams 3).1 (by decide),
   (GetImageCopy_out_of_range rawDataSize threeSprites emptyStreams 0).2 (by decide)⟩

/-- C6: `GxStream::GetImage(i)` fails with the "Invalid operation" error for
every container and every index, and so never returns a value. -/
theorem GxStream.GetImage_invalid (g : GxStream) (i : Nat) :
    g.GetImage i = .error (.runtime_error "Invalid operation") ∧
    ∀ view, g.GetImage i ≠ .ok view := by
  refine ⟨rfl, fun view h => ?_⟩
  simp [GxStream.GetImage] at h

/-- C7, refuted as stated: on the 0-element `emptyStreams`, index 0 is out of
range and `GetImage(0)` of the streaming variant raises instead of returning
the absent sentinel. -/
theorem GetImage_out_of_range_counterexample :
    emptyStreams.GetCount ≤ 0 ∧
    emptyStreams.GetImage 0 = .error (.runtime_error "Invalid operation") ∧
    emptyStreams.GetImage 0 ≠ .ok none := by
  refine ⟨by decide, rfl, ?_⟩
  simp [GxStream.GetImage]

/-- C7, amended: for an index `i >= count`, `GetImage(i)` of the eager variant
returns the absent sentinel without a fault, and `GetImage(i)` of the
streaming variant raises "Invalid operation". -/
theorem GetImage_out_of_range (f : GxFile) (g : GxStream) (i : Nat) :
    (f.GetCount ≤ i → f.GetImage i = .ok none) ∧
    (g.GetCount ≤ i → g.GetImage i = .error (.runtime_error "Invalid operation")) := by
  refine ⟨fun h => ?_, fun _ => rfl⟩
  have h2 : ¬ i < f._elements.length := Nat.not_lt.mpr h
  simp only [GxFile.GetImage, h2, dif_neg, not_false_eq_true]

/-- Witness of C7 amended: index 5 of `threeSprites`, index 0 of
`emptyStreams`. -/
theorem GetImage_out_of_range_witness :
    threeSprites.GetImage 5 = .ok none ∧
    emptyStreams.GetImage 0 = .error (.runtime_error "Invalid operation") :=
  ⟨(GetImage_out_of_range threeSprites emptyStreams 5).1 (by decide),
   (GetImage_out_of_range threeSprites emptyStreams 0).2 (by decide)⟩

/-! ## Stream reads -/

theorem decodeElement_length (bytes : List UInt8) (e : rct_g1_element_32bit)
    (h : decodeElement bytes = some e) : bytes.length = 16 := by
  unfold decodeElement at h
  split at h
  · rfl
  · exact absurd h (by simp)

theorem le32_lt (b0 b1 b2 b3 : UInt8) : le32 b0 b1 b2 b3 < 2 ^ 32 := by
  have h0 := UInt8.toNat_lt b0
  have h1 := UInt8.toNat_lt b1
  have h2 := UInt8.toNat_lt b2
  have h3 := UInt8.toNat_lt b3
  unfold le32
  omega

theorem decodeElement_offset_lt (bytes : List UInt8) (e : rct_g1_element_32bit)
    (h : decodeElement bytes = some e) : e.offset < 2 ^ 32 := by
  unfold decodeElement at h
  split at h
  · cases h
    exact le32_lt _ _ _ _
  · exact absurd h (by simp)

theorem IStream.Read_at (s : IStream) (p len : Nat) (h : p + len ≤ s.data.length) :
    (s.SetPosition p).Read len =
      (.ok ((s.data.drop p).take len),
        { data := s.data, position := p + len, reads := (p, len) :: s.reads }) := by
  simp only [IStream.Read, IStream.SetPosition, h, if_true]

theorem IStream.ReadValueElement_at (s : IStream) (p : Nat) (e : rct_g1_element_32bit)
    (h : decodeElement ((s.data.drop p).take 16) = some e) :
    (s.SetPosition p).ReadValueElement =
      (.ok e, { data := s.data, position := p + 16, reads := (p, 16) :: s.reads }) := by
  have hlen := decodeElement_length _ _ h
  simp only [List.length_take, List.length_drop] at hlen
  have hfit : p + 16 ≤ s.data.length := by omega
  simp only [IStream.ReadValueElement, sizeof_rct_g1_element_32bit, IStream.Read_at s p 16 hfit, h]

theorem GxStream.ReadElement_of_record (g : GxStream) (i : Nat) (e : rct_g1_element_32bit)
    (h : g.record i = some e) :
    g.ReadElement i =
      (.ok e, g.withElementStream
        { data := g.elementStream.data, position := g._elementStart + i * 16 + 16,
          reads := (g._elementStart + i * 16, 16) :: g.elementStream.reads }) := by
  simp only [GxStream.record, sizeof_rct_g1_element_32bit] at h
  simp only [GxStream.ReadElement, sizeof_rct_g1_element_32bit,
    IStream.ReadValueElement_at _ _ _ h]

theorem IStream.ReadValueElement_mk (d : List UInt8) (p q : Nat) (r : List (Nat × Nat))
    (e : rct_g1_element_32bit) (h : decodeElement ((d.drop p).take 16) = some e) :
    IStream.ReadValueElement (IStream.SetPosition { data := d, position := q, reads := r } p) =
      (.ok e, { data := d, position := p + 16, reads := (p, 16) :: r }) :=
  IStream.ReadValueElement_at { data := d, position := q, reads := r } p e h

theorem IStream.ReadArray_head (s : IStream) (p len : Nat) :
    ((s.SetPosition p).ReadArray len).2.reads = (p, len) :: s.reads := by
  unfold IStream.ReadArray IStream.Read IStream.SetPosition
  split <;> rfl

theorem GxStream.copySlice_request (g : GxStream) (i : Nat) (src : rct_g1_element_32bit)
    (dataLength : Nat) :
    (g.copySlice i src dataLength).2.dataStream.reads =
      (g._dataStart + src.offset, dataLength) :: g.dataStream.reads := by
  obtain ⟨handles, es, ds, count, dataSize, ci, ce⟩ := g
  cases handles with
  | combined s =>
    have k := IStream.ReadArray_head s (ds + src.offset) dataLength
    simp only [GxStream.copySlice, GxStream.ReadData, GxStream.dataStream,
      GxStream.withDataStream]
    generalize (s.SetPosition (ds + src.offset)).ReadArray dataLength = r at k ⊢
    obtain ⟨res, s1⟩ := r
    cases res <;> exact k
  | separate se sd =>
    have k := IStream.ReadArray_head sd (ds + src.offset) dataLength
    simp only [GxStream.copySlice, GxStream.ReadData, GxStream.dataStream,
      GxStream.withDataStream]
    generalize (sd.SetPosition (ds + src.offset)).ReadArray dataLength = r at k ⊢
    obtain ⟨res, s1⟩ := r
    cases res <;> exact k

@[simp] theorem GxStream.withElementStream_count (g : GxStream) (s : IStream) :
    (g.withElementStream s)._count = g._count := by
  unfold GxStream.withElementStream; split <;> rfl

@[simp] theorem GxStream.withElementStream_dataSize (g : GxStream) (s : IStream) :
    (g.withElementStream s)._dataSize = g._dataSize := by
  unfold GxStream.withElementStream; split <;> rfl

@[simp] theorem GxStream.withElementStream_dataStart (g : GxStream) (s : IStream) :
    (g.withElementStream s)._dataStart = g._dataStart := by
  unfold GxStream.withElementStream; split <;> rfl

@[simp] theorem GxStream.withElementStream_elementStart (g : GxStream) (s : IStream) :
    (g.withElementStream s)._elementStart = g._elementStart := by
  unfold GxStream.withElementStream; split <;> rfl

@[simp] theorem GxStream.withElementStream_cachedIndex (g : GxStream) (s : IStream) :
    (g.withElementStream s)._cachedIndex = g._cachedIndex := by
  unfold GxStream.withElementStream; split <;> rfl

@[simp] theorem GxStream.withElementStream_cachedElement (g : GxStream) (s : IStream) :
    (g.withElementStream s)._cachedElement = g._cachedElement := by
  unfold GxStream.withElementStream; split <;> rfl

@[simp] theorem GxStream.withElementStream_elementStream (g : GxStream) (s : IStream) :
    (g.withElementStream s).elementStream = s := by
  obtain ⟨handles, es, ds, count, dataSize, ci, ce⟩ := g
  cases handles <;> rfl

theorem GxStream.withElementStream_dataStream_data (g : GxStream) (s : IStream)
    (h : s.data = g.elementStream.data) :
    (g.withElementStream s).dataStream.data = g.dataStream.data := by
  obtain ⟨handles, es, ds, count, dataSize, ci, ce⟩ := g
  cases handles with
  | combined s0 => exact h
  | separate se sd => rfl

theorem GxStream.withElementStream_record (g : GxStream) (s : IStream)
    (h : s.data = g.elementStream.data) (j : Nat) :
    (g.withElementStream s).record j = g.record j := by
  simp only [GxStream.record, GxStream.withElementStream_elementStream,
    GxStream.withElementStream_elementStart, h]

/-- The state of the container after a successful `ReadElement(i)`. -/
theorem GxStream.ReadElement_ok (g : GxStream) (i : Nat) (e : rct_g1_element_32bit)
    (h : g.record i = some e) :
    ∃ g1 : GxStream, g.ReadElement i = (.ok e, g1) ∧
      g1._count = g._count ∧ g1._dataSize = g._dataSize ∧ g1._dataStart = g._dataStart ∧
      g1._elementStart = g._elementStart ∧
      g1._cachedIndex = g._cachedIndex ∧ g1._cachedElement = g._cachedElement ∧
      g1.elementStream.data = g.elementStream.data ∧
      g1.dataStream.data = g.dataStream.data ∧
      (∀ j, g1.record j = g.record j) ∧
      g1.elementStream.reads = (g._elementStart + i * 16, 16) :: g.elementStream.reads := by
  refine ⟨_, GxStream.ReadElement_of_record g i e h, ?_, ?_, ?_, ?_, ?_, ?_, ?_, ?_, ?_, ?_⟩
  · simp
  · simp
  · simp
  · simp
  · simp
  · simp
  · simp
  · exact GxStream.withElementStream_dataStream_data _ _ rfl
  · exact GxStream.withElementStream_record _ _ rfl
  · simp

/-- C2: for a streaming container and an index `i < count`, the data read
`GetImageCopy(i)` requests, at `_dataStart + offset(i)`, has length
`offset(i+1) - offset(i)` when `i` is not the last index and
`dataSize - offset(i)` when it is: the values of those unsigned subtractions
(32-bit between two record offsets, 64-bit against `_dataSize`), which are the
plain differences whenever `offset(i)` does not exceed what it is subtracted
from.  `src` and `next` are the records stored at `i` and `i + 1`. -/
theorem GxStream.GetImageCopy_request_length (g : GxStream) (i : Nat)
    (src : rct_g1_element_32bit) (hi : i < g._count) (hsrc : g.record i = some src) :
    (∀ next : rct_g1_element_32bit, i < g._count - 1 → g.record (i + 1) = some next →
      (g.GetImageCopy i).2.dataStream.reads.head? =
        some (g._dataStart + src.offset, wrapSub 32 next.offset src.offset) ∧
      (src.offset ≤ next.offset →
        wrapSub 32 next.offset src.offset = next.offset - src.offset)) ∧
    (i = g._count - 1 →
      (g.GetImageCopy i).2.dataStream.reads.head? =
        some (g._dataStart + src.offset, wrapSub 64 g._dataSize src.offset) ∧
      (src.offset ≤ g._dataSize → g._dataSize < 2 ^ 64 →
        wrapSub 64 g._dataSize src.offset = g._dataSize - src.offset)) := by
  obtain ⟨g1, hread, hc1, hs1, hd1, -, -, -, -, -, hrec1, -⟩ := GxStream.ReadElement_ok g i src hsrc
  constructor
  · intro next hnotlast hnext
    obtain ⟨g2, hread2, -, -, hd2, -, -, -, -, -, -, -⟩ :=
      GxStream.ReadElement_ok g1 (i + 1) next ((hrec1 (i + 1)).trans hnext)
    have hlt : i < g1._count - 1 := by rw [hc1]; exact hnotlast
    constructor
    · simp only [GxStream.GetImageCopy, hi, if_true, hread, hlt, hread2,
        GxStream.copySlice_request, List.head?_cons, hd2, hd1]
    · intro hle
      have hb : next.offset < 2 ^ 32 := decodeElement_offset_lt _ _ hnext
      have := wrapSub_of_le 32 next.offset src.offset (by omega) (by exact_mod_cast hle) hb
      omega
  · intro hlast
    have hnlt : ¬ i < g1._count - 1 := by rw [hc1]; omega
    constructor
    · simp only [GxStream.GetImageCopy, hi, if_true, hread, hnlt, if_false,
        GxStream.copySlice_request, List.head?_cons, hd1, hs1]
    · intro hle h64
      have := wrapSub_of_le 64 g._dataSize src.offset (by omega) (by exact_mod_cast hle) h64
      omega

/-- Witness of C2: in `twoSlices` (count 2, offsets 0 and 10, dataSize 25, blob
at stream position 40) the copy of element 0 requests 10 bytes at 40 and the
copy of element 1 requests 15 bytes at 50. -/
theorem GxStream.GetImageCopy_request_length_witness :
    (twoSlices.GetImageCopy 0).2.dataStream.reads.head? = some (40, 10) ∧
    (twoSlices.GetImageCopy 1).2.dataStream.reads.head? = some (50, 15) :=
  ⟨((GxStream.GetImageCopy_request_length twoSlices 0 (squareRecord 0 1) (by decide)
      (by decide)).1 (squareRecord 10 1) (by decide) (by decide)).1,
   ((GxStream.GetImageCopy_request_length twoSlices 1 (squareRecord 10 1) (by decide)
      (by decide)).2 (by decide)).1⟩

theorem IStream.ReadValueElement_reads (s : IStream) (p : Nat) :
    ((s.SetPosition p).ReadValueElement).2.reads = (p, 16) :: s.reads := by
  unfold IStream.ReadValueElement IStream.Read IStream.SetPosition sizeof_rct_g1_element_32bit
  split
  · rename_i bytes s1 heq
    split at heq
    · simp only [Prod.mk.injEq] at heq
      obtain ⟨-, rfl⟩ := heq
      split <;> rfl
    · simp only [Prod.mk.injEq] at heq
      exact absurd heq.1 (by simp)
  · rename_i e s1 heq
    split at heq
    · simp only [Prod.mk.injEq] at heq
      exact absurd heq.1 (by simp)
    · simp only [Prod.mk.injEq] at heq
      obtain ⟨-, rfl⟩ := heq
      rfl

theorem GxStream.ReadData_ok (g : GxStream) (offset len : Nat)
    (h : g._dataStart + offset + len ≤ g.dataStream.data.length) :
    (g.ReadData offset len).1 =
        .ok ((g.dataStream.data.drop (g._dataStart + offset)).take len) ∧
      ∃ pre, (g.ReadData offset len).2.elementStream.reads = pre ++ g.elementStream.reads := by
  obtain ⟨handles, es, ds, count, dataSize, ci, ce⟩ := g
  cases handles with
  | combined s =>
    have hr := IStream.Read_at s _ _ h
    simp only [GxStream.dataStream] at hr
    refine ⟨?_, [(ds + offset, len)], ?_⟩
    · simp only [GxStream.ReadData, GxStream.dataStream, IStream.ReadArray, hr]
    · simp only [GxStream.ReadData, GxStream.dataStream, IStream.ReadArray, hr,
        GxStream.withDataStream, GxStream.elementStream]
      rfl
  | separate se sd =>
    have hr := IStream.Read_at sd _ _ h
    simp only [GxStream.dataStream] at hr
    refine ⟨?_, [], ?_⟩
    · simp only [GxStream.ReadData, GxStream.dataStream, IStream.ReadArray, hr]
    · rfl

theorem GxStream.copySlice_ok (g : GxStream) (i : Nat) (src : rct_g1_element_32bit)
    (len : Nat) (h : g._dataStart + src.offset + len ≤ g.dataStream.data.length) :
    (g.copySlice i src len).1 =
        .ok { offset := some ((g.dataStream.data.drop (g._dataStart + src.offset)).take len),
              width := src.width, height := src.height, x_offset := src.x_offset,
              y_offset := src.y_offset, flags := src.flags,
              zoomed_offset := src.zoomed_offset } ∧
      ∃ pre, (g.copySlice i src len).2.elementStream.reads = pre ++ g.elementStream.reads := by
  obtain ⟨hread, pre, hpre⟩ := GxStream.ReadData_ok g src.offset len h
  unfold GxStream.copySlice
  generalize g.ReadData src.offset len = r at hread hpre
  obtain ⟨res, g1⟩ := r
  simp only at hread hpre
  subst hread
  exact ⟨rfl, pre, hpre⟩

/-- The copy call of the streaming container reduced to its last step: under
the presence of the records it reads, `GetImageCopy(i)` is `copySlice` with the
adjacency length, run on a container with the same streams' bytes. -/
theorem GxStream.GetImageCopy_eq_copySlice (g : GxStream) (i : Nat)
    (src next : rct_g1_element_32bit) (hi : i < g._count) (hsrc : g.record i = some src)
    (hnext : i < g._count - 1 → g.record (i + 1) = some next) :
    ∃ g2 : GxStream,
      g.GetImageCopy i = g2.copySlice i src (g.dataLength i src next) ∧
      g2._dataStart = g._dataStart ∧ g2.dataStream.data = g.dataStream.data ∧
      ∃ pre, g2.elementStream.reads = pre ++ g.elementStream.reads ∧
        (g._elementStart + i * 16, 16) ∈ pre := by
  obtain ⟨g1, hread, hc1, hs1, hd1, -, -, -, -, hdd1, hrec1, hlog1⟩ :=
    GxStream.ReadElement_ok g i src hsrc
  by_cases hlast : i < g._count - 1
  · obtain ⟨g2, hread2, -, -, hd2, -, -, -, -, hdd2, -, hlog2⟩ :=
      GxStream.ReadElement_ok g1 (i + 1) next ((hrec1 (i + 1)).trans (hnext hlast))
    have hlt : i < g1._count - 1 := by rw [hc1]; exact hlast
    refine ⟨g2, ?_, hd2.trans hd1, hdd2.trans hdd1,
      [(g1._elementStart + (i + 1) * 16, 16), (g._elementStart + i * 16, 16)], ?_, by simp⟩
    · simp only [GxStream.GetImageCopy, hi, if_true, hread, hlt, hread2, GxStream.dataLength,
        adjacencyLength, hlast]
    · rw [hlog2, hlog1]; rfl
  · have hnlt : ¬ i < g1._count - 1 := by rw [hc1]; exact hlast
    refine ⟨g1, ?_, hd1, hdd1, [(g._elementStart + i * 16, 16)], ?_, by simp⟩
    · simp only [GxStream.GetImageCopy, hi, if_true, hread, hnlt, if_false, hs1,
        GxStream.dataLength, adjacencyLength, hlast]
    · rw [hlog1]; rfl

/-- C9, refuted as stated: `truncatedBlob` and `truncatedTable` are built by
the constructor, index 0 is below their count and record 0 is in the element
stream, yet `GetImageCopy(0)` returns no record.  On `truncatedBlob` the four
bytes requested at `_dataStart + 0` are not all in the data stream (two are),
on `truncatedTable` the successor record read to size the slice is missing:
the call reads record 0 at position 8, fails to read record 1 at position 24
and issues no data read at all; both calls throw. -/
theorem GxStream.GetImageCopy_reads_counterexample :
    (0 < truncatedBlob._count ∧
      truncatedBlob.record 0 = some (squareRecord 0 1) ∧
      (truncatedBlob.GetImageCopy 0).2.dataStream.reads.head?
        = some (truncatedBlob._dataStart + 0, 4) ∧
      truncatedBlob.dataStream.data.length < truncatedBlob._dataStart + 0 + 4 ∧
      (truncatedBlob.GetImageCopy 0).1 = .error .io_exception ∧
      ¬ ∃ copy, (truncatedBlob.GetImageCopy 0).1 = .ok copy) ∧
    (0 < truncatedTable._count ∧
      truncatedTable.record 0 = some (squareRecord 0 1) ∧
      truncatedTable.record 1 = none ∧
      (truncatedTable.GetImageCopy 0).2.dataStream.reads
        = [(24, 16), (8, 16)] ++ truncatedTable.dataStream.reads ∧
      (truncatedTable.GetImageCopy 0).1 = .error .io_exception ∧
      ¬ ∃ copy, (truncatedTable.GetImageCopy 0).1 = .ok copy) := by
  have hblob : (truncatedBlob.GetImageCopy 0).1 = .error .io_exception := by rfl
  have htable : (truncatedTable.GetImageCopy 0).1 = .error .io_exception := by rfl
  refine ⟨⟨by decide, by decide, by decide, by decide, hblob, ?_⟩,
    ⟨by decide, by decide, by decide, by decide, htable, ?_⟩⟩
  · rintro ⟨copy, h⟩
    rw [hblob] at h
    exact absurd h (by simp)
  · rintro ⟨copy, h⟩
    rw [htable] at h
    exact absurd h (by simp)

/-- C9, amended: for a streaming container and an index `i < count` whose
record `src` (the 16 bytes of the element stream at `_elementStart + i * 16`),
successor record (when `i` is not the last index) and pixel slice are present
in the streams, `GetImageCopy(i)` issues
the element read at `_elementStart + i * 16`, issues the data read at
`_dataStart + src.offset`, and returns a record with the width, height,
x_offset, y_offset, flags and zoomed_offset of `src` and, as buffer, the bytes
of the data stream at that position. -/
theorem GxStream.GetImageCopy_reads (g : GxStream) (i : Nat)
    (src next : rct_g1_element_32bit) (hi : i < g._count)
    (hsrc : decodeElement ((g.elementStream.data.drop (g._elementStart + i * 16)).take 16)
      = some src)
    (hnext : i < g._count - 1 → g.record (i + 1) = some next)
    (hdata : g._dataStart + src.offset + g.dataLength i src next ≤ g.dataStream.data.length) :
    (g.GetImageCopy i).1 =
      .ok { offset := some ((g.dataStream.data.drop (g._dataStart + src.offset)).take
                      (g.dataLength i src next)),
            width := src.width, height := src.height, x_offset := src.x_offset,
            y_offset := src.y_offset, flags := src.flags,
            zoomed_offset := src.zoomed_offset } ∧
    (∃ pre, (g.GetImageCopy i).2.elementStream.reads = pre ++ g.elementStream.reads ∧
      (g._elementStart + i * 16, 16) ∈ pre) ∧
    (g.GetImageCopy i).2.dataStream.reads.head? =
      some (g._dataStart + src.offset, g.dataLength i src next) := by
  obtain ⟨g2, hcopy, hd2, hdd2, pre2, hpre2, hmem⟩ :=
    GxStream.GetImageCopy_eq_copySlice g i src next hi hsrc hnext
  obtain ⟨hres, pre, hpre⟩ := GxStream.copySlice_ok g2 i src (g.dataLength i src next)
    (by rw [hd2, hdd2]; exact hdata)
  rw [hcopy]
  refine ⟨by rw [hres, hd2, hdd2], ⟨pre ++ pre2, ?_, List.mem_append_right pre hmem⟩, ?_⟩
  · rw [hpre, hpre2, List.append_assoc]
  · rw [GxStream.copySlice_request, List.head?_cons, hd2]

/-- Witness of C9 on `twoSlices`, element 0: the record at stream position 8,
ten bytes from stream position 40. -/
theorem GxStream.GetImageCopy_reads_witness :
    (twoSlices.GetImageCopy 0).1 =
      .ok { offset := some [0, 1, 2, 3, 4, 5, 6, 7, 8, 9], width := 1, height := 1,
            x_offset := 0, y_offset := 0, flags := 0, zoomed_offset := 0 } ∧
    (twoSlices.GetImageCopy 0).2.dataStream.reads.head? = some (40, 10) :=
  ⟨(GxStream.GetImageCopy_reads twoSlices 0 (squareRecord 0 1) (squareRecord 10 1) (by decide)
      (by decide) (by decide) (by decide)).1,
   (GxStream.GetImageCopy_reads twoSlices 0 (squareRecord 0 1) (squareRecord 10 1) (by decide)
      (by decide) (by decide) (by decide)).2.2⟩

/-! ## The two variants on one container image -/

theorem decodeElement_of_length (bytes : List UInt8) (h : bytes.length = 16) :
    ∃ e, decodeElement bytes = some e := by
  match bytes, h with
  | [_, _, _, _, _, _, _, _, _, _, _, _, _, _, _, _], _ => exact ⟨_, rfl⟩

theorem IStream.ReadValueUInt32_mk (d : List UInt8) (p : Nat) (r : List (Nat × Nat)) (v : Nat)
    (h : decodeUInt32 ((d.drop p).take 4) = some v) :
    IStream.ReadValueUInt32 { data := d, position := p, reads := r } =
      (.ok v, { data := d, position := p + 4, reads := (p, 4) :: r }) := by
  have hlen : ((d.drop p).take 4).length = 4 := by
    generalize (d.drop p).take 4 = l at h
    unfold decodeUInt32 at h
    split at h
    · rfl
    · exact absurd h (by simp)
  simp only [List.length_take, List.length_drop] at hlen
  have hfit : p + 4 ≤ d.length := by omega
  simp only [IStream.ReadValueUInt32, IStream.Read, hfit, if_true, h]

theorem GxFile.readElements_ok (n : Nat) (d : List UInt8) (p : Nat) (r : List (Nat × Nat))
    (h : p + n * 16 ≤ d.length) :
    ∃ (elements : List (rct_g1_element Nat)) (r1 : List (Nat × Nat)),
      GxFile.readElements n { data := d, position := p, reads := r } =
        (.ok elements, { data := d, position := p + n * 16, reads := r1 }) ∧
      elements.length = n ∧
      ∀ k e, k < n → decodeElement ((d.drop (p + k * 16)).take 16) = some e →
        elements[k]? = some (GxFile.convertElement e) := by
  induction n generalizing p r with
  | zero => exact ⟨[], r, by simp [GxFile.readElements], rfl, fun k e hk => absurd hk (by omega)⟩
  | succ n ih =>
    have hlen : ((d.drop p).take 16).length = 16 := by
      simp only [List.length_take, List.length_drop]; omega
    obtain ⟨e0, he0⟩ := decodeElement_of_length _ hlen
    have hread := IStream.ReadValueElement_at { data := d, position := p, reads := r } p e0 he0
    simp only [IStream.SetPosition] at hread
    obtain ⟨rest, r1, hrest, hrlen, hrget⟩ := ih (p + 16) ((p, 16) :: r) (by omega)
    refine ⟨GxFile.convertElement e0 :: rest, r1, ?_, by simp [hrlen], ?_⟩
    · simp only [GxFile.readElements, hread, hrest]
      have : p + 16 + n * 16 = p + (n + 1) * 16 := by ring
      rw [this]
    · intro k e hk hdec
      cases k with
      | zero =>
        simp only [Nat.zero_mul, Nat.add_zero] at hdec
        rw [he0] at hdec
        cases hdec
        simp
      | succ k =>
        have hpos : p + (k + 1) * 16 = p + 16 + k * 16 := by ring
        rw [hpos] at hdec
        simpa using hrget k e (by omega) hdec

theorem GxFile.fixPointers_getElem? (dataStart : Nat) (elements : List (rct_g1_element Nat))
    (k : Nat) (e : rct_g1_element Nat) (h : elements[k]? = some e) :
    (GxFile.fixPointers dataStart elements)[k]? =
      some { e with offset := e.offset + dataStart } := by
  simp only [GxFile.fixPointers, List.getElem?_map, h, Option.map_some']

/-- The eager container the constructor builds from a container image. -/
theorem GxFile.eager_of_image (dataStart : Nat) (bytes : List UInt8) (count dataSize : Nat)
    (himg : IsContainerImage bytes count dataSize) :
    ∃ f : GxFile, (GxFile.ofStream dataStart (IStream.ofBytes bytes)).1 = .ok f ∧
      f.dataStart = dataStart ∧
      f._data = (bytes.drop (8 + count * 16)).take dataSize ∧
      f._elements.length = count ∧
      ∀ k e, k < count → imageRecord bytes k = some e →
        f._elements[k]? =
          some { offset := e.offset + dataStart, width := e.width, height := e.height,
                 x_offset := e.x_offset, y_offset := e.y_offset, flags := e.flags,
                 zoomed_offset := e.zoomed_offset } := by
  obtain ⟨hcount, hsize, hlen⟩ := himg
  have h1 := IStream.ReadValueUInt32_mk bytes 0 [] count (by simpa using hcount)
  have h2 := IStream.ReadValueUInt32_mk bytes 4 [(0, 4)] dataSize hsize
  obtain ⟨elements, r1, hel, hellen, helget⟩ :=
    GxFile.readElements_ok count bytes 8 [(4, 4), (0, 4)] (by omega)
  have h3 := IStream.Read_at { data := bytes, position := 8 + count * 16, reads := r1 }
    (8 + count * 16) dataSize (by simp only []; omega)
  simp only [IStream.SetPosition] at h3
  refine ⟨{ _elements := GxFile.fixPointers dataStart elements,
            _data := (bytes.drop (8 + count * 16)).take dataSize,
            dataStart := dataStart }, ?_, rfl, rfl, ?_, ?_⟩
  · simp only [GxFile.ofStream, IStream.ofBytes, h1, h2, hel, h3]
  · simp [GxFile.fixPointers, hellen]
  · intro k e hk hrec
    have := GxFile.fixPointers_getElem? dataStart elements k _ (helget k e hk hrec)
    simpa [GxFile.convertElement] using this

/-- The streaming container the one-stream constructor builds from a container
image. -/
theorem GxStream.streaming_of_image (bytes : List UInt8) (count dataSize : Nat)
    (himg : IsContainerImage bytes count dataSize) :
    ∃ g : GxStream, (GxStream.ofStream (IStream.ofBytes bytes)).1 = .ok g ∧
      g._count = count ∧ g._dataSize = dataSize ∧ g._elementStart = 8 ∧
      g._dataStart = 8 + count * 16 ∧ g.elementStream.data = bytes ∧
      g.dataStream.data = bytes := by
  obtain ⟨hcount, hsize, hlen⟩ := himg
  have h1 := IStream.ReadValueUInt32_mk bytes 0 [] count (by simpa using hcount)
  have h2 := IStream.ReadValueUInt32_mk bytes 4 [(0, 4)] dataSize hsize
  simp only [Nat.zero_add, Nat.reduceAdd] at h1 h2
  refine ⟨{ handles := .combined { data := bytes, position := 8, reads := [(4, 4), (0, 4)] },
            _elementStart := 8, _dataStart := 8 + count * 16, _count := count,
            _dataSize := dataSize, _cachedIndex := GxStream.noCachedIndex,
            _cachedElement := GxStream.noCachedElement }, ?_, rfl, rfl, rfl, rfl, rfl, rfl⟩
  simp only [GxStream.ofStream, IStream.ofBytes, h1, h2, IStream.GetPosition,
    sizeof_rct_g1_element_32bit]

theorem List.take_drop_take {α : Type} (l : List α) (a size offset len : Nat)
    (h : offset + len ≤ size) :
    (((l.drop a).take size).drop offset).take len = (l.drop (a + offset)).take len := by
  rw [List.drop_take, List.take_take, List.drop_drop, Nat.min_eq_left (by omega)]


/-- Whenever the eager container hands out a copy of a stored element, the
record carries that element's fields and a buffer of the length the size
function gives. -/
theorem GxFile.GetImageCopy_length (g1_calculate_data_size : rct_g1_element Nat → Nat)
    (f : GxFile) (i : Nat) (element : rct_g1_element Nat)
    (result : rct_g1_element (Option (List UInt8)))
    (hel : f._elements[i]? = some element)
    (h : f.GetImageCopy g1_calculate_data_size i = .ok result) :
    ∃ buffer,
      result = { offset := some buffer, width := element.width, height := element.height,
                 x_offset := element.x_offset, y_offset := element.y_offset,
                 flags := element.flags, zoomed_offset := element.zoomed_offset } ∧
      buffer.length = g1_calculate_data_size element := by
  have hi : i < f._elements.length := by
    by_contra hcon
    rw [List.getElem?_eq_none (Nat.not_lt.mp hcon)] at hel
    exact absurd hel (by simp)
  have hget : f._elements[i] = element := by
    rw [List.getElem?_eq_getElem hi] at hel
    exact Option.some.inj hel
  simp only [GxFile.GetImageCopy, hi, dif_pos, hget, GxFile.DuplicateImageData,
    GxFile.memcpyFrom] at h
  split at h
  · rename_i buffer heq
    split at heq
    · rename_i hfit
      simp only [Except.ok.injEq] at heq h
      subst heq
      subst h
      refine ⟨_, rfl, ?_⟩
      simp only [List.length_take, List.length_drop]
      omega
    · exact absurd heq (by simp)
  · exact absurd h (by simp)

/-- Whenever `copySlice` returns a record, it carries the fields of `src`. -/
theorem GxStream.copySlice_fields (g : GxStream) (i : Nat) (src : rct_g1_element_32bit)
    (len : Nat) (result : rct_g1_element (Option (List UInt8)))
    (h : (g.copySlice i src len).1 = .ok result) :
    ∃ data,
      result = { offset := some data, width := src.width, height := src.height,
                 x_offset := src.x_offset, y_offset := src.y_offset, flags := src.flags,
                 zoomed_offset := src.zoomed_offset } := by
  unfold GxStream.copySlice at h
  generalize g.ReadData src.offset len = r at h
  obtain ⟨res, g1⟩ := r
  cases res with
  | error e => simp at h
  | ok data =>
    simp only [Except.ok.injEq] at h
    exact ⟨data, h.symm⟩

/-- C8, refuted as stated: `twinB` is a container image on which the eager
container, run with the bitmap size rule, copies one byte for element 0 and
the streaming container copies two; and whatever the size function is, the
two variants cannot agree on both `twinA` and `twinB`, which hold the same
element record over blobs of one and two bytes. -/
theorem GetImageCopy_variants_counterexample :
    IsContainerImage twinA 1 1 ∧ IsContainerImage twinB 1 2 ∧
    eagerCopyOf rawDataSize 4096 twinB 0 = .ok twinBEager ∧
    streamCopyOf twinB 0 = .ok twinBStreamed ∧
    twinBEager.offset = some [5] ∧ twinBStreamed.offset = some [5, 6] ∧
    ¬ ∃ g1_calculate_data_size : rct_g1_element Nat → Nat,
        eagerCopyOf g1_calculate_data_size 4096 twinA 0 = streamCopyOf twinA 0 ∧
        eagerCopyOf g1_calculate_data_size 4096 twinB 0 = streamCopyOf twinB 0 := by
  refine ⟨⟨by decide, by decide, by decide⟩, ⟨by decide, by decide, by decide⟩, by rfl, by rfl,
    rfl, rfl, ?_⟩
  rintro ⟨size, hA, hB⟩
  have hfA : (GxFile.ofStream 4096 (IStream.ofBytes twinA)).1 =
      .ok { _elements := [{ offset := 4096, width := 1, height := 1, x_offset := 0,
                            y_offset := 0, flags := 0, zoomed_offset := 0 }],
            _data := [5], dataStart := 4096 } := by rfl
  have hfB : (GxFile.ofStream 4096 (IStream.ofBytes twinB)).1 =
      .ok { _elements := [{ offset := 4096, width := 1, height := 1, x_offset := 0,
                            y_offset := 0, flags := 0, zoomed_offset := 0 }],
            _data := [5, 6], dataStart := 4096 } := by rfl
  have hsA : streamCopyOf twinA 0 =
      .ok { offset := some [5], width := 1, height := 1, x_offset := 0, y_offset := 0,
            flags := 0, zoomed_offset := 0 } := by rfl
  have hsB : streamCopyOf twinB 0 =
      .ok { offset := some [5, 6], width := 1, height := 1, x_offset := 0, y_offset := 0,
            flags := 0, zoomed_offset := 0 } := by rfl
  rw [hsA] at hA
  rw [hsB] at hB
  simp only [eagerCopyOf, hfA] at hA
  simp only [eagerCopyOf, hfB] at hB
  obtain ⟨bufA, hbA, hlA⟩ := GxFile.GetImageCopy_length size _ 0
    { offset := 4096, width := 1, height := 1, x_offset := 0, y_offset := 0, flags := 0,
      zoomed_offset := 0 } _ (by rfl) hA
  obtain ⟨bufB, hbB, hlB⟩ := GxFile.GetImageCopy_length size _ 0
    { offset := 4096, width := 1, height := 1, x_offset := 0, y_offset := 0, flags := 0,
      zoomed_offset := 0 } _ (by rfl) hB
  simp only [rct_g1_element.mk.injEq, Option.some.injEq, and_true] at hbA hbB
  subst hbA
  subst hbB
  simp only [List.length_cons, List.length_nil] at hlA hlB
  omega

/-- C8, amended: for a container image and an index `i < count`, whenever the
eager container and the streaming container built from the same bytes both
return from `GetImageCopy(i)`, the two records have the same width, height,
x_offset, y_offset, flags and zoomed_offset; and if the size function, applied
to the rebased element `i`, gives the adjacency length (`offset(i+1) -
offset(i)`, or `dataSize - offset(i)` for the last index) and that slice ends
within the blob, both return the same record: the fields of disk record `i`
and the blob bytes of the slice. -/
theorem GetImageCopy_variants_agree (g1_calculate_data_size : rct_g1_element Nat → Nat)
    (dataStart : Nat) (bytes : List UInt8) (count dataSize i : Nat)
    (src next : rct_g1_element_32bit) (himg : IsContainerImage bytes count dataSize)
    (hi : i < count) (hsrc : imageRecord bytes i = some src)
    (hnext : i < count - 1 → imageRecord bytes (i + 1) = some next) :
    (∀ eager streamed : rct_g1_element (Option (List UInt8)),
      eagerCopyOf g1_calculate_data_size dataStart bytes i = .ok eager →
      streamCopyOf bytes i = .ok streamed →
      eager.width = streamed.width ∧ eager.height = streamed.height ∧
      eager.x_offset = streamed.x_offset ∧ eager.y_offset = streamed.y_offset ∧
      eager.flags = streamed.flags ∧ eager.zoomed_offset = streamed.zoomed_offset) ∧
    (g1_calculate_data_size
        { offset := src.offset + dataStart, width := src.width, height := src.height,
          x_offset := src.x_offset, y_offset := src.y_offset, flags := src.flags,
          zoomed_offset := src.zoomed_offset } = adjacencyLength count dataSize i src next →
      src.offset + adjacencyLength count dataSize i src next ≤ dataSize →
      eagerCopyOf g1_calculate_data_size dataStart bytes i = streamCopyOf bytes i ∧
      streamCopyOf bytes i =
        .ok { offset := some ((bytes.drop (8 + count * 16 + src.offset)).take
                        (adjacencyLength count dataSize i src next)),
              width := src.width, height := src.height, x_offset := src.x_offset,
              y_offset := src.y_offset, flags := src.flags,
              zoomed_offset := src.zoomed_offset }) := by
  have hlen := himg.2.2
  obtain ⟨g, hg, hgc, hgs, hge, hgd, hged, hgdd⟩ :=
    GxStream.streaming_of_image bytes count dataSize himg
  have hrec : ∀ k, g.record k = imageRecord bytes k := by
    intro k
    simp only [GxStream.record, imageRecord, hged, hge, sizeof_rct_g1_element_32bit]
  obtain ⟨g2, hcopy, hd2, hdd2, -⟩ := GxStream.GetImageCopy_eq_copySlice g i src next
    (by rw [hgc]; exact hi) ((hrec i).trans hsrc)
    (fun h => (hrec (i + 1)).trans (hnext (by rw [hgc] at h; exact h)))
  have hdl : g.dataLength i src next = adjacencyLength count dataSize i src next := by
    simp only [GxStream.dataLength, hgc, hgs]
  rw [hdl] at hcopy
  have hstreamed : streamCopyOf bytes i =
      (g2.copySlice i src (adjacencyLength count dataSize i src next)).1 := by
    simp only [streamCopyOf, hg, hcopy]
  obtain ⟨f, hf, hfs, hfd, hfl, hfe⟩ :=
    GxFile.eager_of_image dataStart bytes count dataSize himg
  have hel := hfe i src hi hsrc
  have heagerOf : eagerCopyOf g1_calculate_data_size dataStart bytes i =
      f.GetImageCopy g1_calculate_data_size i := by
    simp only [eagerCopyOf, hf]
  constructor
  · intro eager streamed he hs
    rw [heagerOf] at he
    rw [hstreamed] at hs
    obtain ⟨buffer, rfl, -⟩ := GxFile.GetImageCopy_length _ f i _ eager hel he
    obtain ⟨data, rfl⟩ := GxStream.copySlice_fields g2 i src _ streamed hs
    exact ⟨rfl, rfl, rfl, rfl, rfl, rfl⟩
  · intro hsize hfit
    obtain ⟨hres, -⟩ :=
      GxStream.copySlice_ok g2 i src (adjacencyLength count dataSize i src next)
        (by rw [hd2, hdd2, hgd, hgdd]; omega)
    rw [hd2, hdd2, hgd, hgdd] at hres
    have hdlen : f._data.length = dataSize := by
      rw [hfd, List.length_take, List.length_drop]; omega
    have heager := GxFile.GetImageCopy_eq g1_calculate_data_size f i _ hel
      (by rw [hfs]; simp)
      (by rw [hfs, hsize, hdlen]; simp only [Nat.add_sub_cancel]; exact hfit)
    simp only [hfs, hsize, Nat.add_sub_cancel, hfd, List.take_drop_take _ _ _ _ _ hfit]
      at heager
    rw [hstreamed, hres]
    exact ⟨by rw [heagerOf, heager], rfl⟩

/-- Witness of C8 amended: on `packedBytes`, where the 2x2 sprites are stored
back to back, the two variants return the same record for index 1; on
`twinB`, where they return different buffers, the fields still agree. -/
theorem GetImageCopy_variants_agree_witness :
    (eagerCopyOf rawDataSize 4096 packedBytes 1 = streamCopyOf packedBytes 1 ∧
      streamCopyOf packedBytes 1 =
        .ok { offset := some [21, 22, 23, 24], width := 2, height := 2, x_offset := 0,
              y_offset := 0, flags := 0, zoomed_offset := 0 }) ∧
    eagerCopyOf rawDataSize 4096 twinB 0 = .ok twinBEager ∧
    streamCopyOf twinB 0 = .ok twinBStreamed ∧
    (twinBEager.width = twinBStreamed.width ∧ twinBEager.height = twinBStreamed.height ∧
      twinBEager.x_offset = twinBStreamed.x_offset ∧
      twinBEager.y_offset = twinBStreamed.y_offset ∧
      twinBEager.flags = twinBStreamed.flags ∧
      twinBEager.zoomed_offset = twinBStreamed.zoomed_offset) :=
  ⟨(GetImageCopy_variants_agree rawDataSize 4096 packedBytes 2 8 1 (squareRecord 4 2)
      (squareRecord 4 2) ⟨by decide, by decide, by decide⟩ (by decide) (by decide)
      (by decide)).2 (by decide) (by decide),
   by rfl, by rfl,
   (GetImageCopy_variants_agree rawDataSize 4096 twinB 1 2 0 (squareRecord 0 1)
      (squareRecord 0 1) ⟨by decide, by decide, by decide⟩ (by decide) (by decide)
      (by decide)).1 twinBEager twinBStreamed (by rfl) (by rfl)⟩

/-! ## The cache of the streaming container -/

theorem IStream.Read_data (s : IStream) (len : Nat) : (s.Read len).2.data = s.data := by
  unfold IStream.Read
  split <;> rfl

theorem IStream.ReadValueElement_data (s : IStream) : s.ReadValueElement.2.data = s.data := by
  have h := IStream.Read_data s sizeof_rct_g1_element_32bit
  unfold IStream.ReadValueElement
  generalize s.Read sizeof_rct_g1_element_32bit = r at h
  obtain ⟨res, s1⟩ := r
  cases res with
  | error e => exact h
  | ok bytes =>
    simp only
    split <;> exact h

theorem IStream.ReadValueElement_decode (s : IStream) (e : rct_g1_element_32bit)
    (h : s.ReadValueElement.1 = .ok e) :
    decodeElement ((s.data.drop s.position).take 16) = some e := by
  unfold IStream.ReadValueElement IStream.Read sizeof_rct_g1_element_32bit at h
  split at h
  · rename_i bytes s1 heq
    split at heq
    · simp only [Prod.mk.injEq, Except.ok.injEq] at heq
      obtain ⟨rfl, -⟩ := heq
      split at h
      · rename_i v hv
        simp only [Except.ok.injEq] at h
        rw [hv, h]
      · simp at h
    · simp only [Prod.mk.injEq] at heq
      exact absurd heq.1 (by simp)
  · simp at h

theorem GxStream.SameStore.refl (g : GxStream) : GxStream.SameStore g g :=
  ⟨rfl, rfl, rfl, rfl, rfl, rfl⟩

theorem GxStream.SameStore.trans {g g1 g2 : GxStream} (h1 : GxStream.SameStore g g1)
    (h2 : GxStream.SameStore g1 g2) : GxStream.SameStore g g2 := by
  obtain ⟨a1, b1, c1, d1, e1, f1⟩ := h1
  obtain ⟨a2, b2, c2, d2, e2, f2⟩ := h2
  exact ⟨a2.trans a1, b2.trans b1, c2.trans c1, d2.trans d1, e2.trans e1, f2.trans f1⟩

theorem GxStream.SameStore.record {g g1 : GxStream} (h : GxStream.SameStore g g1) (j : Nat) :
    g1.record j = g.record j := by
  obtain ⟨-, -, hes, -, hed, -⟩ := h
  simp only [GxStream.record, hes, hed]

/-- Whatever its outcome, `ReadElement` keeps the store and the cache. -/
theorem GxStream.ReadElement_store (g : GxStream) (i : Nat) :
    GxStream.SameStore g (g.ReadElement i).2 ∧
    (g.ReadElement i).2._cachedIndex = g._cachedIndex ∧
    (g.ReadElement i).2._cachedElement = g._cachedElement := by
  have hd := IStream.ReadValueElement_data
    (g.elementStream.SetPosition (g._elementStart + i * sizeof_rct_g1_element_32bit))
  simp only [IStream.SetPosition] at hd
  refine ⟨⟨?_, ?_, ?_, ?_, ?_, ?_⟩, ?_, ?_⟩ <;>
    simp only [GxStream.ReadElement, GxStream.withElementStream_count,
      GxStream.withElementStream_dataSize, GxStream.withElementStream_elementStart,
      GxStream.withElementStream_dataStart, GxStream.withElementStream_elementStream,
      GxStream.withElementStream_cachedIndex, GxStream.withElementStream_cachedElement]
  · exact hd
  · exact GxStream.withElementStream_dataStream_data _ _ hd

/-- A record `ReadElement(i)` returns is the record stored at index `i`. -/
theorem GxStream.ReadElement_record (g : GxStream) (i : Nat) (e : rct_g1_element_32bit)
    (h : (g.ReadElement i).1 = .ok e) : g.record i = some e := by
  have hd := IStream.ReadValueElement_decode
    (g.elementStream.SetPosition (g._elementStart + i * sizeof_rct_g1_element_32bit)) e h
  exact hd

/-- Whatever its outcome, `ReadData` keeps the store and the cache. -/
theorem GxStream.ReadData_store (g : GxStream) (offset len : Nat) :
    GxStream.SameStore g (g.ReadData offset len).2 ∧
    (g.ReadData offset len).2._cachedIndex = g._cachedIndex ∧
    (g.ReadData offset len).2._cachedElement = g._cachedElement := by
  have hd := IStream.Read_data (g.dataStream.SetPosition (g._dataStart + offset)) len
  simp only [IStream.SetPosition] at hd
  obtain ⟨handles, es, ds, count, dataSize, ci, ce⟩ := g
  cases handles with
  | combined s =>
    exact ⟨⟨rfl, rfl, rfl, rfl, hd, hd⟩, rfl, rfl⟩
  | separate se sd =>
    exact ⟨⟨rfl, rfl, rfl, rfl, rfl, hd⟩, rfl, rfl⟩
/-- The two ways `copySlice` can end: the data read raised, and the cache is
as before; or a record is returned, and the cache holds `(i, src)`. -/
theorem GxStream.copySlice_outcome (g : GxStream) (i : Nat) (src : rct_g1_element_32bit)
    (len : Nat) :
    GxStream.SameStore g (g.copySlice i src len).2 ∧
    ((∃ e, (g.ReadData src.offset len).1 = .error e ∧ (g.copySlice i src len).1 = .error e ∧
        (g.copySlice i src len).2._cachedIndex = g._cachedIndex ∧
        (g.copySlice i src len).2._cachedElement = g._cachedElement) ∨
     (∃ result, (g.copySlice i src len).1 = .ok result ∧
        (g.copySlice i src len).2._cachedIndex = toUInt32 i ∧
        (g.copySlice i src len).2._cachedElement = src)) := by
  obtain ⟨hstore, hci, hce⟩ := GxStream.ReadData_store g src.offset len
  unfold GxStream.copySlice
  generalize g.ReadData src.offset len = r at hstore hci hce
  obtain ⟨res, g1⟩ := r
  cases res with
  | error e => exact ⟨hstore, Or.inl ⟨e, rfl, rfl, hci, hce⟩⟩
  | ok data => exact ⟨hstore, Or.inr ⟨_, rfl, rfl, rfl⟩⟩

/-- The two ways `GetImageCopy(i)`, `i < count`, can end: it raised, and the
cache is as before; or a record is returned, and the cache holds `i` with the
record stored at `i`. -/
theorem GxStream.GetImageCopy_outcome (g : GxStream) (i : Nat) (hi : i < g._count) :
    GxStream.SameStore g (g.GetImageCopy i).2 ∧
    ((∃ e, (g.GetImageCopy i).1 = .error e ∧
        (g.GetImageCopy i).2._cachedIndex = g._cachedIndex ∧
        (g.GetImageCopy i).2._cachedElement = g._cachedElement) ∨
     (∃ result src, (g.GetImageCopy i).1 = .ok result ∧ g.record i = some src ∧
        (g.GetImageCopy i).2._cachedIndex = toUInt32 i ∧
        (g.GetImageCopy i).2._cachedElement = src)) := by
  obtain ⟨hs1, hci1, hce1⟩ := GxStream.ReadElement_store g i
  have hrec1 := GxStream.ReadElement_record g i
  simp only [GxStream.GetImageCopy, hi, if_true]
  generalize g.ReadElement i = r at hs1 hci1 hce1 hrec1
  obtain ⟨res, g1⟩ := r
  cases res with
  | error e => exact ⟨hs1, Or.inl ⟨e, rfl, hci1, hce1⟩⟩
  | ok src =>
    have hsrc : g.record i = some src := hrec1 src rfl
    simp only
    split
    · obtain ⟨hs2, hci2, hce2⟩ := GxStream.ReadElement_store g1 (i + 1)
      generalize g1.ReadElement (i + 1) = r2 at hs2 hci2 hce2
      obtain ⟨res2, g2⟩ := r2
      cases res2 with
      | error e => exact ⟨hs1.trans hs2, Or.inl ⟨e, rfl, hci2.trans hci1, hce2.trans hce1⟩⟩
      | ok next =>
        simp only
        obtain ⟨hs3, hout⟩ := GxStream.copySlice_outcome g2 i src
          (wrapSub 32 next.offset src.offset)
        refine ⟨(hs1.trans hs2).trans hs3, ?_⟩
        rcases hout with ⟨e, -, he, hci3, hce3⟩ | ⟨result, hr, hci3, hce3⟩
        · exact Or.inl ⟨e, he, hci3.trans (hci2.trans hci1), hce3.trans (hce2.trans hce1)⟩
        · exact Or.inr ⟨result, src, hr, hsrc, hci3, hce3⟩
    · obtain ⟨hs3, hout⟩ := GxStream.copySlice_outcome g1 i src
        (wrapSub 64 g1._dataSize src.offset)
      refine ⟨hs1.trans hs3, ?_⟩
      rcases hout with ⟨e, -, he, hci3, hce3⟩ | ⟨result, hr, hci3, hce3⟩
      · exact Or.inl ⟨e, he, hci3.trans hci1, hce3.trans hce1⟩
      · exact Or.inr ⟨result, src, hr, hsrc, hci3, hce3⟩

/-- The ways `GetNextZoomImage(i)` can end.  On a hit nothing changes and the
rule is applied to the cached element; on a miss either the read raised, and
the cache is as before, or the rule is applied to the record stored at `i`,
which is cached with `i`. -/
theorem GxStream.GetNextZoomImage_outcome (G1_FLAG_HAS_ZOOM_SPRITE : Nat) (g : GxStream)
    (i : Nat) :
    GxStream.SameStore g (g.GetNextZoomImage G1_FLAG_HAS_ZOOM_SPRITE i).2 ∧
    ((g._cachedIndex = i ∧ (g.GetNextZoomImage G1_FLAG_HAS_ZOOM_SPRITE i).2 = g ∧
        (g.GetNextZoomImage G1_FLAG_HAS_ZOOM_SPRITE i).1 =
          .ok (GxStream.zoomRule G1_FLAG_HAS_ZOOM_SPRITE i g._cachedElement)) ∨
     (g._cachedIndex ≠ i ∧ ∃ e, (g.ReadElement i).1 = .error e ∧
        (g.GetNextZoomImage G1_FLAG_HAS_ZOOM_SPRITE i).1 = .error e ∧
        (g.GetNextZoomImage G1_FLAG_HAS_ZOOM_SPRITE i).2._cachedIndex = g._cachedIndex ∧
        (g.GetNextZoomImage G1_FLAG_HAS_ZOOM_SPRITE i).2._cachedElement = g._cachedElement) ∨
     (g._cachedIndex ≠ i ∧ ∃ element, g.record i = some element ∧
        (g.GetNextZoomImage G1_FLAG_HAS_ZOOM_SPRITE i).1 =
          .ok (GxStream.zoomRule G1_FLAG_HAS_ZOOM_SPRITE i element) ∧
        (g.GetNextZoomImage G1_FLAG_HAS_ZOOM_SPRITE i).2._cachedIndex = toUInt32 i ∧
        (g.GetNextZoomImage G1_FLAG_HAS_ZOOM_SPRITE i).2._cachedElement = element)) := by
  by_cases hhit : g._cachedIndex = i
  · refine ⟨?_, Or.inl ⟨hhit, ?_, ?_⟩⟩ <;>
      simp only [GxStream.GetNextZoomImage, hhit, ne_eq, not_true_eq_false, if_false,
        GxStream.zoomRule]
    exact GxStream.SameStore.refl g
  · obtain ⟨hs1, hci1, hce1⟩ := GxStream.ReadElement_store g i
    have hrec1 := GxStream.ReadElement_record g i
    simp only [GxStream.GetNextZoomImage, hhit, ne_eq, not_false_eq_true, if_true]
    generalize g.ReadElement i = r at hs1 hci1 hce1 hrec1
    obtain ⟨res, g1⟩ := r
    cases res with
    | error e => exact ⟨hs1, Or.inr (Or.inl ⟨trivial, e, rfl, rfl, hci1, hce1⟩)⟩
    | ok element =>
      refine ⟨?_, Or.inr (Or.inr ⟨trivial, element, hrec1 element rfl, rfl, rfl, rfl⟩)⟩
      obtain ⟨a, b, c, d, e, f⟩ := hs1
      exact ⟨a, b, c, d, e, f⟩
/-- A failed `GetImageCopy` leaves the cache as it was. -/
theorem GxStream.GetImageCopy_error_cache (g : GxStream) (i : Nat) (e : GxError)
    (h : (g.GetImageCopy i).1 = .error e) :
    (g.GetImageCopy i).2._cachedIndex = g._cachedIndex ∧
    (g.GetImageCopy i).2._cachedElement = g._cachedElement := by
  by_cases hi : i < g._count
  · rcases (GxStream.GetImageCopy_outcome g i hi).2 with ⟨e1, -, hci, hce⟩ | ⟨result, src, hr, -⟩
    · exact ⟨hci, hce⟩
    · rw [hr] at h
      exact absurd h (by simp)
  · simp only [GxStream.GetImageCopy, hi, if_false] at h
    exact absurd h (by simp)

/-- A failed `GetNextZoomImage` leaves the cache as it was. -/
theorem GxStream.GetNextZoomImage_error_cache (G1_FLAG_HAS_ZOOM_SPRITE : Nat) (g : GxStream)
    (i : Nat) (e : GxError)
    (h : (g.GetNextZoomImage G1_FLAG_HAS_ZOOM_SPRITE i).1 = .error e) :
    (g.GetNextZoomImage G1_FLAG_HAS_ZOOM_SPRITE i).2._cachedIndex = g._cachedIndex ∧
    (g.GetNextZoomImage G1_FLAG_HAS_ZOOM_SPRITE i).2._cachedElement = g._cachedElement := by
  rcases (GxStream.GetNextZoomImage_outcome G1_FLAG_HAS_ZOOM_SPRITE g i).2 with
    ⟨-, -, hr⟩ | ⟨-, e1, -, -, hci, hce⟩ | ⟨-, element, -, hr, -⟩
  · rw [hr] at h
    exact absurd h (by simp)
  · exact ⟨hci, hce⟩
  · rw [hr] at h
    exact absurd h (by simp)

theorem GxStream.copySlice_error (g : GxStream) (i : Nat) (src : rct_g1_element_32bit)
    (len : Nat) (e : GxError) (h : (g.ReadData src.offset len).1 = .error e) :
    (g.copySlice i src len).1 = .error e := by
  unfold GxStream.copySlice
  generalize g.ReadData src.offset len = r at h
  obtain ⟨res, g1⟩ := r
  cases res with
  | error e1 =>
    simp only [Except.error.injEq] at h
    rw [h]
  | ok data => simp at h

/-- C12: if a stream read inside `GxStream::GetImageCopy(i)` fails (of record
`i`, of record `i + 1`, or of the data slice), or the read of record `i` inside
`GxStream::GetNextZoomImage(i)` fails, the call fails with the error of that
read and the cached index and cached element are what they were before the
call. -/
theorem GxStream.read_failure_keeps_cache (G1_FLAG_HAS_ZOOM_SPRITE : Nat) (g : GxStream)
    (i : Nat) (e : GxError) :
    (i < g._count → (g.ReadElement i).1 = .error e →
      (g.GetImageCopy i).1 = .error e ∧
      (g.GetImageCopy i).2._cachedIndex = g._cachedIndex ∧
      (g.GetImageCopy i).2._cachedElement = g._cachedElement) ∧
    (∀ src g1, i < g._count → g.ReadElement i = (.ok src, g1) → i < g._count - 1 →
      (g1.ReadElement (i + 1)).1 = .error e →
      (g.GetImageCopy i).1 = .error e ∧
      (g.GetImageCopy i).2._cachedIndex = g._cachedIndex ∧
      (g.GetImageCopy i).2._cachedElement = g._cachedElement) ∧
    (∀ src g1 next g2, i < g._count → g.ReadElement i = (.ok src, g1) → i < g._count - 1 →
      g1.ReadElement (i + 1) = (.ok next, g2) →
      (g2.ReadData src.offset (wrapSub 32 next.offset src.offset)).1 = .error e →
      (g.GetImageCopy i).1 = .error e ∧
      (g.GetImageCopy i).2._cachedIndex = g._cachedIndex ∧
      (g.GetImageCopy i).2._cachedElement = g._cachedElement) ∧
    (∀ src g1, i < g._count → g.ReadElement i = (.ok src, g1) → i = g._count - 1 →
      (g1.ReadData src.offset (wrapSub 64 g._dataSize src.offset)).1 = .error e →
      (g.GetImageCopy i).1 = .error e ∧
      (g.GetImageCopy i).2._cachedIndex = g._cachedIndex ∧
      (g.GetImageCopy i).2._cachedElement = g._cachedElement) ∧
    (g._cachedIndex ≠ i → (g.ReadElement i).1 = .error e →
      (g.GetNextZoomImage G1_FLAG_HAS_ZOOM_SPRITE i).1 = .error e ∧
      (g.GetNextZoomImage G1_FLAG_HAS_ZOOM_SPRITE i).2._cachedIndex = g._cachedIndex ∧
      (g.GetNextZoomImage G1_FLAG_HAS_ZOOM_SPRITE i).2._cachedElement = g._cachedElement) := by
  have hcount1 : ∀ src g1, g.ReadElement i = (.ok src, g1) →
      g1._count = g._count ∧ g1._dataSize = g._dataSize := by
    intro src g1 h
    have hs := (GxStream.ReadElement_store g i).1
    rw [h] at hs
    exact ⟨hs.1, hs.2.1⟩
  refine ⟨?_, ?_, ?_, ?_, ?_⟩
  · intro hi hread
    have hfail : (g.GetImageCopy i).1 = .error e := by
      simp only [GxStream.GetImageCopy, hi, if_true]
      generalize g.ReadElement i = r at hread
      obtain ⟨res, g1⟩ := r
      cases res with
      | error e1 =>
        simp only [Except.error.injEq] at hread
        rw [hread]
      | ok src => simp at hread
    exact ⟨hfail, GxStream.GetImageCopy_error_cache g i e hfail⟩
  · intro src g1 hi h1 hlast hread
    have hlt : i < g1._count - 1 := by rw [(hcount1 src g1 h1).1]; exact hlast
    have hfail : (g.GetImageCopy i).1 = .error e := by
      simp only [GxStream.GetImageCopy, hi, if_true, h1, hlt]
      generalize g1.ReadElement (i + 1) = r at hread
      obtain ⟨res, g2⟩ := r
      cases res with
      | error e1 =>
        simp only [Except.error.injEq] at hread
        rw [hread]
      | ok next => simp at hread
    exact ⟨hfail, GxStream.GetImageCopy_error_cache g i e hfail⟩
  · intro src g1 next g2 hi h1 hlast h2 hread
    have hlt : i < g1._count - 1 := by rw [(hcount1 src g1 h1).1]; exact hlast
    have hfail : (g.GetImageCopy i).1 = .error e := by
      simp only [GxStream.GetImageCopy, hi, if_true, h1, hlt, h2]
      exact GxStream.copySlice_error g2 i src _ e hread
    exact ⟨hfail, GxStream.GetImageCopy_error_cache g i e hfail⟩
  · intro src g1 hi h1 hlast hread
    have hnlt : ¬ i < g1._count - 1 := by rw [(hcount1 src g1 h1).1]; omega
    have hfail : (g.GetImageCopy i).1 = .error e := by
      simp only [GxStream.GetImageCopy, hi, if_true, h1, hnlt, if_false,
        (hcount1 src g1 h1).2]
      exact GxStream.copySlice_error g1 i src _ e hread
    exact ⟨hfail, GxStream.GetImageCopy_error_cache g i e hfail⟩
  · intro hmiss hread
    have hfail : (g.GetNextZoomImage G1_FLAG_HAS_ZOOM_SPRITE i).1 = .error e := by
      simp only [GxStream.GetNextZoomImage, hmiss, ne_eq, not_false_eq_true, if_true]
      generalize g.ReadElement i = r at hread
      obtain ⟨res, g1⟩ := r
      cases res with
      | error e1 =>
        simp only [Except.error.injEq] at hread
        rw [hread]
      | ok src => simp at hread
    exact ⟨hfail, GxStream.GetNextZoomImage_error_cache _ g i e hfail⟩
/-- Witness of C12: on `truncatedBlob` the data read of `GetImageCopy(0)` runs
past the end of the stream; on `truncatedTable` record 1 is missing, which
fails `GetImageCopy(1)`, the look-ahead of `GetImageCopy(0)` and
`GetNextZoomImage(1)`.  Each call raises the stream's error and the cache
keeps its initial content. -/
theorem GxStream.read_failure_keeps_cache_witness :
    ((truncatedBlob.GetImageCopy 0).1 = .error .io_exception ∧
      (truncatedBlob.GetImageCopy 0).2._cachedIndex = truncatedBlob._cachedIndex ∧
      (truncatedBlob.GetImageCopy 0).2._cachedElement = truncatedBlob._cachedElement) ∧
    ((truncatedTable.GetImageCopy 1).1 = .error .io_exception ∧
      (truncatedTable.GetImageCopy 1).2._cachedIndex = truncatedTable._cachedIndex ∧
      (truncatedTable.GetImageCopy 1).2._cachedElement = truncatedTable._cachedElement) ∧
    ((truncatedTable.GetImageCopy 0).1 = .error .io_exception ∧
      (truncatedTable.GetImageCopy 0).2._cachedIndex = truncatedTable._cachedIndex ∧
      (truncatedTable.GetImageCopy 0).2._cachedElement = truncatedTable._cachedElement) ∧
    ((truncatedTable.GetNextZoomImage 16 1).1 = .error .io_exception ∧
      (truncatedTable.GetNextZoomImage 16 1).2._cachedIndex = truncatedTable._cachedIndex ∧
      (truncatedTable.GetNextZoomImage 16 1).2._cachedElement =
        truncatedTable._cachedElement) :=
  ⟨(GxStream.read_failure_keeps_cache 16 truncatedBlob 0 .io_exception).2.2.2.1
      (squareRecord 0 1) (truncatedBlob.ReadElement 0).2 (by decide) (by rfl) (by decide)
      (by rfl),
   (GxStream.read_failure_keeps_cache 16 truncatedTable 1 .io_exception).1
      (by decide) (by rfl),
   (GxStream.read_failure_keeps_cache 16 truncatedTable 0 .io_exception).2.1
      (squareRecord 0 1) (truncatedTable.ReadElement 0).2 (by decide) (by rfl) (by decide)
      (by rfl),
   (GxStream.read_failure_keeps_cache 16 truncatedTable 1 .io_exception).2.2.2.2
      (by decide) (by rfl)⟩

theorem GxStream.CacheCoherent_initial (g : GxStream)
    (hinit : g._cachedIndex = GxStream.noCachedIndex) (hcount : g._count < 2 ^ 32) :
    g.CacheCoherent := by
  intro i hi hidx
  rw [hinit, GxStream.noCachedIndex] at hidx
  omega

/-- One call with an index below `count` keeps the store and the coherence of
the cache. -/
theorem GxStream.step_coherent (G1_FLAG_HAS_ZOOM_SPRITE : Nat) (g : GxStream) (c : GxCall)
    (hc : c.index < g._count) (hcount : g._count < 2 ^ 32) (hcoh : g.CacheCoherent) :
    GxStream.SameStore g (g.step G1_FLAG_HAS_ZOOM_SPRITE c) ∧
    (g.step G1_FLAG_HAS_ZOOM_SPRITE c).CacheCoherent := by
  have hkeep : ∀ g1 : GxStream, GxStream.SameStore g g1 → g1._cachedIndex = g._cachedIndex →
      g1._cachedElement = g._cachedElement → g1.CacheCoherent := by
    intro g1 hs hci hce j hj hidx
    rw [hs.record j, hce]
    exact hcoh j (by rw [← hs.1]; exact hj) (by rw [← hci]; exact hidx)
  have hset : ∀ (g1 : GxStream) (i : Nat) (src : rct_g1_element_32bit), i < g._count →
      GxStream.SameStore g g1 → g1._cachedIndex = toUInt32 i → g1._cachedElement = src →
      g.record i = some src → g1.CacheCoherent := by
    intro g1 i src hi hs hci hce hrec j hj hidx
    have hi32 : toUInt32 i = i := Nat.mod_eq_of_lt (Nat.lt_trans hi hcount)
    rw [hci, hi32] at hidx
    subst hidx
    rw [hs.record i, hce]
    exact hrec
  cases c with
  | copy i =>
    have hi : i < g._count := hc
    obtain ⟨hs, hout⟩ := GxStream.GetImageCopy_outcome g i hi
    refine ⟨hs, ?_⟩
    rcases hout with ⟨e, -, hci, hce⟩ | ⟨result, src, -, hrec, hci, hce⟩
    · exact hkeep _ hs hci hce
    · exact hset _ i src hi hs hci hce hrec
  | zoom i =>
    have hi : i < g._count := hc
    obtain ⟨hs, hout⟩ := GxStream.GetNextZoomImage_outcome G1_FLAG_HAS_ZOOM_SPRITE g i
    refine ⟨hs, ?_⟩
    rcases hout with ⟨-, hsame, -⟩ | ⟨-, e, -, -, hci, hce⟩ | ⟨-, element, hrec, -, hci, hce⟩
    · simp only [GxStream.step, hsame]
      exact hcoh
    · exact hkeep _ hs hci hce
    · exact hset _ i element hi hs hci hce hrec

/-- Any sequence of calls with indices below `count` keeps the store and the
coherence of the cache. -/
theorem GxStream.run_coherent (G1_FLAG_HAS_ZOOM_SPRITE : Nat) (calls : List GxCall) :
    ∀ g : GxStream, (∀ c ∈ calls, c.index < g._count) → g._count < 2 ^ 32 →
      g.CacheCoherent →
      GxStream.SameStore g (g.run G1_FLAG_HAS_ZOOM_SPRITE calls) ∧
      (g.run G1_FLAG_HAS_ZOOM_SPRITE calls).CacheCoherent := by
  induction calls with
  | nil => exact fun g _ _ hcoh => ⟨GxStream.SameStore.refl g, hcoh⟩
  | cons c rest ih =>
    intro g hcalls hcount hcoh
    obtain ⟨hs1, hcoh1⟩ := GxStream.step_coherent G1_FLAG_HAS_ZOOM_SPRITE g c
      (hcalls c (List.mem_cons_self c rest)) hcount hcoh
    have hc1 : (g.step G1_FLAG_HAS_ZOOM_SPRITE c)._count = g._count := hs1.1
    obtain ⟨hs2, hcoh2⟩ := ih (g.step G1_FLAG_HAS_ZOOM_SPRITE c)
      (fun c2 h2 => by rw [hc1]; exact hcalls c2 (List.mem_cons_of_mem c h2))
      (by rw [hc1]; exact hcount) hcoh1
    exact ⟨hs1.trans hs2, hcoh2⟩

/-- In a coherent state, `GetNextZoomImage(i)` applies the zoom rule to the
record stored at `i`, on a hit and on a miss. -/
theorem GxStream.GetNextZoomImage_coherent (G1_FLAG_HAS_ZOOM_SPRITE : Nat) (g : GxStream)
    (i : Nat) (element : rct_g1_element_32bit) (hi : i < g._count) (hcoh : g.CacheCoherent)
    (hrec : g.record i = some element) :
    (g.GetNextZoomImage G1_FLAG_HAS_ZOOM_SPRITE i).1 =
      .ok (GxStream.zoomRule G1_FLAG_HAS_ZOOM_SPRITE i element) := by
  rcases (GxStream.GetNextZoomImage_outcome G1_FLAG_HAS_ZOOM_SPRITE g i).2 with
    ⟨hhit, -, hr⟩ | ⟨-, e, hread, -⟩ | ⟨-, element2, hrec2, hr, -⟩
  · have := hcoh i hi hhit
    rw [hrec] at this
    rw [hr, ← Option.some.inj this]
  · obtain ⟨g1, hok, -⟩ := GxStream.ReadElement_ok g i element hrec
    rw [hok] at hread
    exact absurd hread (by simp)
  · rw [hrec] at hrec2
    rw [hr, ← Option.some.inj hrec2]

/-- C11: in every state a streaming container reaches from an initial state
(cache holding no valid index, `count` a 32-bit quantity) by a sequence of
`GetImageCopy` and `GetNextZoomImage` calls with indices below `count`, a
cached index `i < count` comes with record `i` of the element table as cached
element; and for every stored record `i`, `GetNextZoomImage(i)` returns the
zoom rule applied to it: none if the flag is unset, the `size_t` value of
`i - zoomed_offset` if set. -/
theorem GxStream.cache_coherence (G1_FLAG_HAS_ZOOM_SPRITE : Nat) (g0 : GxStream)
    (calls : List GxCall) (hinit : g0._cachedIndex = GxStream.noCachedIndex)
    (hcount : g0._count < 2 ^ 32) (hcalls : ∀ c ∈ calls, c.index < g0._count) :
    (∀ i, i < g0._count → (g0.run G1_FLAG_HAS_ZOOM_SPRITE calls)._cachedIndex = i →
      g0.record i = some (g0.run G1_FLAG_HAS_ZOOM_SPRITE calls)._cachedElement) ∧
    (∀ i element, i < g0._count → g0.record i = some element →
      (element.flags &&& G1_FLAG_HAS_ZOOM_SPRITE = 0 →
        ((g0.run G1_FLAG_HAS_ZOOM_SPRITE calls).GetNextZoomImage
          G1_FLAG_HAS_ZOOM_SPRITE i).1 = .ok none) ∧
      (element.flags &&& G1_FLAG_HAS_ZOOM_SPRITE ≠ 0 →
        ((g0.run G1_FLAG_HAS_ZOOM_SPRITE calls).GetNextZoomImage
          G1_FLAG_HAS_ZOOM_SPRITE i).1 =
            .ok (some (wrapSub 64 i element.zoomed_offset)))) := by
  obtain ⟨hs, hcoh⟩ := GxStream.run_coherent G1_FLAG_HAS_ZOOM_SPRITE calls g0 hcalls hcount
    (GxStream.CacheCoherent_initial g0 hinit hcount)
  constructor
  · intro i hi hidx
    rw [← hs.record i]
    exact hcoh i (by rw [hs.1]; exact hi) hidx
  · intro i element hi hrec
    have hz := GxStream.GetNextZoomImage_coherent G1_FLAG_HAS_ZOOM_SPRITE _ i element
      (by rw [hs.1]; exact hi) hcoh ((hs.record i).trans hrec)
    constructor
    · intro hflag
      rw [hz]
      simp [GxStream.zoomRule, hasFlag, hflag]
    · intro hflag
      rw [hz]
      simp [GxStream.zoomRule, hasFlag, hflag]

/-- Witness of C11 on `zoomStreams`: after `GetNextZoomImage(2)`,
`GetImageCopy(0)`, `GetNextZoomImage(1)`, `GetImageCopy(2)` the cache holds
index 2 with record 2, and `GetNextZoomImage` gives index 0 for element 2
(a hit) and none for element 1 (a miss). -/
theorem GxStream.cache_coherence_witness :
    zoomStreams.record 2 = some (zoomStreams.run 16
      [GxCall.zoom 2, GxCall.copy 0, GxCall.zoom 1, GxCall.copy 2])._cachedElement ∧
    ((zoomStreams.run 16 [GxCall.zoom 2, GxCall.copy 0, GxCall.zoom 1,
      GxCall.copy 2]).GetNextZoomImage 16 2).1 = .ok (some 0) ∧
    ((zoomStreams.run 16 [GxCall.zoom 2, GxCall.copy 0, GxCall.zoom 1,
      GxCall.copy 2]).GetNextZoomImage 16 1).1 = .ok none :=
  ⟨(GxStream.cache_coherence 16 zoomStreams
      [GxCall.zoom 2, GxCall.copy 0, GxCall.zoom 1, GxCall.copy 2] (by decide) (by decide)
      (by decide)).1 2 (by decide) (by rfl),
   ((GxStream.cache_coherence 16 zoomStreams
      [GxCall.zoom 2, GxCall.copy 0, GxCall.zoom 1, GxCall.copy 2] (by decide) (by decide)
      (by decide)).2 2 zoomRecord (by decide) (by decide)).2 (by decide),
   ((GxStream.cache_coherence 16 zoomStreams
      [GxCall.zoom 2, GxCall.copy 0, GxCall.zoom 1, GxCall.copy 2] (by decide) (by decide)
      (by decide)).2 1 (squareRecord 1 1) (by decide) (by decide)).1 (by decide)⟩

/-! ## Construction -/

theorem imageRecord_exists (bytes : List UInt8) (count dataSize i : Nat)
    (himg : IsContainerImage bytes count dataSize) (hi : i < count) :
    ∃ r, imageRecord bytes i = some r := by
  have hlen := himg.2.2
  apply decodeElement_of_length
  simp only [List.length_take, List.length_drop]
  omega

/-- C13: from a stream holding a header `(count, dataSize)`, then `count`
16-byte records, then `dataSize` data bytes, the `GxFile` constructor builds a
container with `GetCount() = count`, whose element `i` has the width, height,
x_offset, y_offset, flags and zoomed_offset of record `i` (all as signed or
unsigned as they are on disk) and the offset `dataStart + offset(i)`, and whose
blob is the `dataSize` data bytes. -/
theorem GxFile.construction (dataStart : Nat) (bytes : List UInt8) (count dataSize : Nat)
    (himg : IsContainerImage bytes count dataSize) :
    ∃ f : GxFile, (GxFile.ofStream dataStart (IStream.ofBytes bytes)).1 = .ok f ∧
      f.GetCount = count ∧ f.dataStart = dataStart ∧
      f._data = (bytes.drop (8 + count * 16)).take dataSize ∧ f._data.length = dataSize ∧
      ∀ i, i < count → ∃ r, imageRecord bytes i = some r ∧
        f._elements[i]? =
          some { offset := dataStart + r.offset, width := r.width, height := r.height,
                 x_offset := r.x_offset, y_offset := r.y_offset, flags := r.flags,
                 zoomed_offset := r.zoomed_offset } := by
  obtain ⟨f, hf, hfs, hfd, hfl, hfe⟩ := GxFile.eager_of_image dataStart bytes count dataSize himg
  have hlen := himg.2.2
  refine ⟨f, hf, hfl, hfs, hfd, ?_, ?_⟩
  · rw [hfd, List.length_take, List.length_drop]
    omega
  · intro i hi
    obtain ⟨r, hr⟩ := imageRecord_exists bytes count dataSize i himg hi
    refine ⟨r, hr, ?_⟩
    rw [hfe i r hi hr, Nat.add_comm]

/-- Witness of C13 on `signedImage`: one element, blob `[9]`, and the record's
`x_offset = -1` and `zoomed_offset = -2` arrive with their sign. -/
theorem GxFile.construction_witness :
    ∃ f : GxFile, (GxFile.ofStream 4096 (IStream.ofBytes signedImage)).1 = .ok f ∧
      f.GetCount = 1 ∧ f._data = [9] ∧
      f._elements[0]? =
        some { offset := 4096, width := 1, height := 1, x_offset := -1, y_offset := 0,
               flags := 16, zoomed_offset := -2 } := by
  obtain ⟨f, hf, hc, -, hd, -, hel⟩ :=
    GxFile.construction 4096 signedImage 1 1 ⟨by decide, by decide, by decide⟩
  obtain ⟨r, hr, he⟩ := hel 0 (by decide)
  have h0 : imageRecord signedImage 0 =
      some { offset := 0, width := 1, height := 1, x_offset := -1, y_offset := 0,
             flags := 16, zoomed_offset := -2 } := by decide
  rw [h0] at hr
  cases hr
  exact ⟨f, hf, hc, hd, he⟩

/-- C14, refuted as stated: `strayImage` is a container image whose record has
disk offset 5 over a one-byte blob; the constructor builds `strayFile` from
it, whose element 0 has the offset `dataStart + 5`, outside
`[dataStart, dataStart + 1)`. -/
theorem GxFile.rebased_offset_counterexample :
    IsContainerImage strayImage 1 1 ∧
    (GxFile.ofStream 4096 (IStream.ofBytes strayImage)).1 = .ok strayFile ∧
    strayFile._elements[0]? =
      some { offset := 4101, width := 1, height := 1, x_offset := 0, y_offset := 0,
             flags := 0, zoomed_offset := 0 } ∧
    strayFile.dataStart = 4096 ∧ strayFile._data.length = 1 ∧
    ¬ (4101 - strayFile.dataStart < strayFile._data.length) :=
  ⟨⟨by decide, by decide, by decide⟩, by rfl, by rfl, rfl, rfl, by decide⟩

/-- C14, amended: in the eager container the constructor builds from a
container image, element `i < count` has the offset `dataStart + offset(i)`:
it is never below `dataStart`, and it is below `dataStart + dataSize` exactly
when the disk offset of record `i` is below `dataSize`. -/
theorem GxFile.rebased_offset (dataStart : Nat) (bytes : List UInt8)
    (count dataSize i : Nat) (r : rct_g1_element_32bit)
    (himg : IsContainerImage bytes count dataSize) (hi : i < count)
    (hr : imageRecord bytes i = some r) :
    ∃ (f : GxFile) (element : rct_g1_element Nat),
      (GxFile.ofStream dataStart (IStream.ofBytes bytes)).1 = .ok f ∧
      f._elements[i]? = some element ∧ f._data.length = dataSize ∧
      f.dataStart ≤ element.offset ∧ element.offset - f.dataStart = r.offset ∧
      (element.offset - f.dataStart < f._data.length ↔ r.offset < dataSize) := by
  obtain ⟨f, hf, hfs, hfd, hfl, hfe⟩ := GxFile.eager_of_image dataStart bytes count dataSize himg
  have hlen := himg.2.2
  have hdlen : f._data.length = dataSize := by
    rw [hfd, List.length_take, List.length_drop]
    omega
  refine ⟨f, _, hf, hfe i r hi hr, hdlen, ?_, ?_, ?_⟩
  · rw [hfs]
    exact Nat.le_add_left _ _
  · rw [hfs]
    simp only [Nat.add_sub_cancel]
  · rw [hfs, hdlen]
    simp only [Nat.add_sub_cancel]

/-- Witness of C14 amended on `packedBytes`, element 1: disk offset 4 of an
8-byte blob. -/
theorem GxFile.rebased_offset_witness :
    ∃ (f : GxFile) (element : rct_g1_element Nat),
      (GxFile.ofStream 4096 (IStream.ofBytes packedBytes)).1 = .ok f ∧
      f._elements[1]? = some element ∧ f._data.length = 8 ∧
      f.dataStart ≤ element.offset ∧ element.offset - f.dataStart = 4 ∧
      (element.offset - f.dataStart < f._data.length ↔ 4 < 8) :=
  GxFile.rebased_offset 4096 packedBytes 2 8 1 (squareRecord 4 2)
    ⟨by decide, by decide, by decide⟩ (by decide) (by decide)

/-- C15: built from one combined stream positioned at a header, a `GxStream`
takes `count` and `dataSize` from the two `u32` header fields, puts
`_elementStart` at the position just after the header and `_dataStart` at
`_elementStart + count * 16`, and leaves the stream 8 bytes further with two
4-byte reads made, those of the header: no record and no pixel byte is read. -/
theorem GxStream.construction_combined (d : List UInt8) (p : Nat) (r : List (Nat × Nat))
    (count dataSize : Nat) (hcount : decodeUInt32 ((d.drop p).take 4) = some count)
    (hsize : decodeUInt32 ((d.drop (p + 4)).take 4) = some dataSize) :
    ∃ (g : GxStream) (s : IStream),
      GxStream.ofStream { data := d, position := p, reads := r } = (.ok g, s) ∧
      g._count = count ∧ g._dataSize = dataSize ∧
      g._elementStart = p + 8 ∧ g._dataStart = p + 8 + count * 16 ∧
      g.handles = .combined s ∧
      s.data = d ∧ s.position = p + 8 ∧ s.reads = (p + 4, 4) :: (p, 4) :: r := by
  have h1 := IStream.ReadValueUInt32_mk d p r count hcount
  have h2 := IStream.ReadValueUInt32_mk d (p + 4) ((p, 4) :: r) dataSize hsize
  have h8 : p + 4 + 4 = p + 8 := by omega
  rw [h8] at h2
  refine ⟨{ handles := .combined { data := d, position := p + 8,
                                    reads := (p + 4, 4) :: (p, 4) :: r },
            _elementStart := p + 8, _dataStart := p + 8 + count * 16, _count := count,
            _dataSize := dataSize, _cachedIndex := GxStream.noCachedIndex,
            _cachedElement := GxStream.noCachedElement },
    { data := d, position := p + 8, reads := (p + 4, 4) :: (p, 4) :: r }, ?_,
    rfl, rfl, rfl, rfl, rfl, rfl, rfl, rfl⟩
  simp only [GxStream.ofStream, h1, h2, IStream.GetPosition, sizeof_rct_g1_element_32bit]

/-- Witness of C15 on `twoSlicesBytes`: count 2, dataSize 25, table at 8, blob
at 40, and the stream left at position 8 after the two header reads. -/
theorem GxStream.construction_combined_witness :
    ∃ (g : GxStream) (s : IStream),
      GxStream.ofStream (IStream.ofBytes twoSlicesBytes) = (.ok g, s) ∧
      g._count = 2 ∧ g._dataSize = 25 ∧ g._elementStart = 8 ∧ g._dataStart = 40 ∧
      g.handles = .combined s ∧
      s.data = twoSlicesBytes ∧ s.position = 8 ∧ s.reads = [(4, 4), (0, 4)] :=
  GxStream.construction_combined twoSlicesBytes 0 [] 2 25 (by decide) (by decide)

/-! ## The slices of the streaming container -/

theorem GxStream.record_offset_lt (g : GxStream) (i : Nat) (e : rct_g1_element_32bit)
    (h : g.record i = some e) : e.offset < 2 ^ 32 :=
  decodeElement_offset_lt _ e h

theorem List.sum_range_telescope (b : Nat → Nat) (n : Nat) (h : ∀ i, i < n → b i ≤ b (i + 1)) :
    b 0 ≤ b n ∧ ((List.range n).map fun i => b (i + 1) - b i).sum = b n - b 0 := by
  induction n with
  | zero => simp
  | succ n ih =>
    obtain ⟨hle, hsum⟩ := ih fun i hi => h i (Nat.lt_succ_of_lt hi)
    have hstep := h n (Nat.lt_succ_self n)
    refine ⟨Nat.le_trans hle hstep, ?_⟩
    rw [List.range_succ, List.map_append, List.sum_append, hsum]
    simp only [List.map_cons, List.map_nil, List.sum_cons, List.sum_nil, Nat.add_zero]
    omega

theorem mono_of_step (b : Nat → Nat) (n : Nat) (h : ∀ i, i + 1 < n → b i ≤ b (i + 1)) :
    ∀ j, j < n → ∀ i, i ≤ j → b i ≤ b j := by
  intro j
  induction j with
  | zero =>
    intro _ i hi
    have : i = 0 := Nat.le_zero.mp hi
    rw [this]
  | succ j ih =>
    intro hj i hi
    rcases Nat.lt_or_ge i (j + 1) with hlt | hge
    · exact Nat.le_trans (ih (by omega) i (by omega)) (h j hj)
    · have : i = j + 1 := by omega
      rw [this]

/-- The data read `GetImageCopy(i)` requests when the records it reads are
present. -/
theorem GxStream.GetImageCopy_request (g : GxStream) (i : Nat)
    (src next : rct_g1_element_32bit) (hi : i < g._count) (hsrc : g.record i = some src)
    (hnext : i < g._count - 1 → g.record (i + 1) = some next) :
    (g.GetImageCopy i).2.dataStream.reads.head? =
      some (g._dataStart + src.offset, g.dataLength i src next) := by
  obtain ⟨g2, hcopy, hd2, -, -⟩ := GxStream.GetImageCopy_eq_copySlice g i src next hi hsrc hnext
  rw [hcopy, GxStream.copySlice_request, List.head?_cons, hd2]

/-- C16: in a streaming container with `count >= 1` whose records have
non-decreasing offsets, the last one at most `dataSize`, the slices
`GetImageCopy` reads partition the blob from `offset(0)` on: the request for
index `i` is `offset(i)` with the adjacency length, the slice ends within
`dataSize`, it ends where the slice of `i + 1` begins, the length is the plain
difference of the offsets (the 32-bit subtraction does not wrap), the last
slice ends at `dataSize`, and the lengths add up to `dataSize - offset(0)`. -/
theorem GxStream.slices_partition (g : GxStream) (r : Nat → rct_g1_element_32bit)
    (hcount : 1 ≤ g._count) (hsize : g._dataSize < 2 ^ 64)
    (hrec : ∀ i, i < g._count → g.record i = some (r i))
    (hmono : ∀ i, i + 1 < g._count → (r i).offset ≤ (r (i + 1)).offset)
    (hlast : (r (g._count - 1)).offset ≤ g._dataSize) :
    (∀ i, i < g._count →
      (g.GetImageCopy i).2.dataStream.reads.head? =
        some (g._dataStart + (r i).offset, g.dataLength i (r i) (r (i + 1))) ∧
      (r i).offset + g.dataLength i (r i) (r (i + 1)) ≤ g._dataSize) ∧
    (∀ i, i + 1 < g._count →
      (r i).offset + g.dataLength i (r i) (r (i + 1)) = (r (i + 1)).offset ∧
      (g.dataLength i (r i) (r (i + 1)) : Int) = (r (i + 1)).offset - (r i).offset) ∧
    (r (g._count - 1)).offset +
      g.dataLength (g._count - 1) (r (g._count - 1)) (r (g._count - 1 + 1)) = g._dataSize ∧
    ((List.range g._count).map fun i => g.dataLength i (r i) (r (i + 1))).sum =
      g._dataSize - (r 0).offset := by
  -- the lengths, case by case
  have hmid : ∀ i, i + 1 < g._count →
      g.dataLength i (r i) (r (i + 1)) = (r (i + 1)).offset - (r i).offset := by
    intro i hi
    have hlt : i < g._count - 1 := by omega
    have hb := GxStream.record_offset_lt g (i + 1) _ (hrec (i + 1) hi)
    have hw := wrapSub_of_le 32 (r (i + 1)).offset (r i).offset (by omega)
      (by exact_mod_cast hmono i hi) hb
    simp only [GxStream.dataLength, adjacencyLength, hlt, if_true]
    have := hmono i hi
    omega
  have hend : ∀ i, i < g._count → ¬ i + 1 < g._count →
      g.dataLength i (r i) (r (i + 1)) = g._dataSize - (r i).offset := by
    intro i hi hn
    have hnlt : ¬ i < g._count - 1 := by omega
    have hi2 : i = g._count - 1 := by omega
    have hle : (r i).offset ≤ g._dataSize := by rw [hi2]; exact hlast
    have hw := wrapSub_of_le 64 g._dataSize (r i).offset (by omega) (by exact_mod_cast hle)
      hsize
    simp only [GxStream.dataLength, adjacencyLength, hnlt, if_false]
    omega
  -- the boundaries: offset(i) below count, dataSize from count on
  have hbmono : ∀ j, j < g._count → ∀ i, i ≤ j → (r i).offset ≤ (r j).offset :=
    mono_of_step (fun i => (r i).offset) g._count hmono
  have hbound : ∀ i, i < g._count → (r i).offset ≤ g._dataSize := fun i hi =>
    Nat.le_trans (hbmono (g._count - 1) (by omega) i (by omega)) hlast
  refine ⟨?_, ?_, ?_, ?_⟩
  · intro i hi
    refine ⟨GxStream.GetImageCopy_request g i (r i) (r (i + 1)) hi (hrec i hi)
      (fun h => hrec (i + 1) (by omega)), ?_⟩
    by_cases hn : i + 1 < g._count
    · rw [hmid i hn]
      have := hmono i hn
      have := hbound (i + 1) hn
      omega
    · rw [hend i hi hn]
      have := hbound i hi
      omega
  · intro i hi
    have := hmono i hi
    rw [hmid i hi]
    constructor
    · omega
    · omega
  · rw [hend (g._count - 1) (by omega) (by omega)]
    omega
  · have htel := List.sum_range_telescope
      (fun i => if i < g._count then (r i).offset else g._dataSize) g._count (by
        intro i hi
        by_cases hn : i + 1 < g._count
        · simp only [hi, hn, if_true]
          exact hmono i hn
        · simp only [hi, hn, if_true, if_false]
          exact hbound i hi)
    have hcongr : ((List.range g._count).map fun i => g.dataLength i (r i) (r (i + 1))) =
        (List.range g._count).map fun i =>
          (if i + 1 < g._count then (r (i + 1)).offset else g._dataSize) -
            (if i < g._count then (r i).offset else g._dataSize) := by
      apply List.map_congr_left
      intro i hi
      have hi2 : i < g._count := List.mem_range.mp hi
      by_cases hn : i + 1 < g._count
      · simp only [hi2, hn, if_true]
        exact hmid i hn
      · simp only [hi2, hn, if_true, if_false]
        exact hend i hi2 hn
    rw [hcongr, htel.2]
    have h0 : 0 < g._count := hcount
    simp only [Nat.lt_irrefl, if_false, h0, if_true]

/-- Witness of C16 on `twoSlices` (offsets 0 and 10, dataSize 25): the
requests are (40, 10) and (50, 15), slice 0 ends at offset 10, slice 1 at 25,
and the lengths add up to 25. -/
theorem GxStream.slices_partition_witness :
    ((twoSlices.GetImageCopy 0).2.dataStream.reads.head? = some (40, 10) ∧
      (twoSlices.GetImageCopy 1).2.dataStream.reads.head? = some (50, 15)) ∧
    (twoSlicesRecord 0).offset +
      twoSlices.dataLength 0 (twoSlicesRecord 0) (twoSlicesRecord 1) =
        (twoSlicesRecord 1).offset ∧
    (twoSlicesRecord 1).offset +
      twoSlices.dataLength 1 (twoSlicesRecord 1) (twoSlicesRecord 2) = 25 ∧
    ((List.range twoSlices._count).map fun i =>
      twoSlices.dataLength i (twoSlicesRecord i) (twoSlicesRecord (i + 1))).sum = 25 := by
  have hmono : ∀ i, i + 1 < twoSlices._count →
      (twoSlicesRecord i).offset ≤ (twoSlicesRecord (i + 1)).offset := by
    intro i hi
    have hc : twoSlices._count = 2 := by decide
    rw [hc] at hi
    have h0 : i = 0 := by omega
    subst h0
    decide
  have h := GxStream.slices_partition twoSlices twoSlicesRecord (by decide) (by decide)
    (by decide) hmono (by decide)
  exact ⟨⟨(h.1 0 (by decide)).1, (h.1 1 (by decide)).1⟩, (h.2.1 0 (by decide)).1, h.2.2.1,
    h.2.2.2⟩

/-! ## The zoom chain of the eager container -/

/-- Under the chain condition, a zoom sibling is a strictly smaller index. -/
theorem GxFile.GetNextZoomImage_smaller (G1_FLAG_HAS_ZOOM_SPRITE : Nat) (f : GxFile)
    (hsize : f.GetCount ≤ 2 ^ 64)
    (hchain : ∀ (k : Nat) (element : rct_g1_element Nat),
      f._elements[k]? = some element →
      element.flags &&& G1_FLAG_HAS_ZOOM_SPRITE ≠ 0 →
      1 ≤ element.zoomed_offset ∧ element.zoomed_offset ≤ k)
    (i : Nat) (hi : i < f.GetCount) :
    f.GetNextZoomImage G1_FLAG_HAS_ZOOM_SPRITE i = .ok none ∨
    ∃ j, j < i ∧ f.GetNextZoomImage G1_FLAG_HAS_ZOOM_SPRITE i = .ok (some j) := by
  have hi2 : i < f._elements.length := hi
  have hel : f._elements[i]? = some f._elements[i] := List.getElem?_eq_getElem hi2
  by_cases hflag : f._elements[i].flags &&& G1_FLAG_HAS_ZOOM_SPRITE = 0
  · left
    simp [GxFile.GetNextZoomImage, hel, hasFlag, hflag]
  · right
    obtain ⟨h1, hk⟩ := hchain i _ hel hflag
    have h64 : i < 2 ^ 64 := Nat.lt_of_lt_of_le hi hsize
    have hw := wrapSub_of_le 64 i f._elements[i].zoomed_offset (by omega) hk h64
    refine ⟨wrapSub 64 i f._elements[i].zoomed_offset, by omega, ?_⟩
    simp [GxFile.GetNextZoomImage, hel, hasFlag, hflag]

/-- With more fuel than the start index, the walk down the zoom chain ends. -/
theorem GxFile.zoomChain_ends (G1_FLAG_HAS_ZOOM_SPRITE : Nat) (f : GxFile)
    (hsize : f.GetCount ≤ 2 ^ 64)
    (hchain : ∀ (k : Nat) (element : rct_g1_element Nat),
      f._elements[k]? = some element →
      element.flags &&& G1_FLAG_HAS_ZOOM_SPRITE ≠ 0 →
      1 ≤ element.zoomed_offset ∧ element.zoomed_offset ≤ k) :
    ∀ fuel i, i < f.GetCount → i < fuel →
      ∃ chain, f.zoomChain G1_FLAG_HAS_ZOOM_SPRITE fuel i = some chain ∧
        chain.head? = some i ∧ chain.length ≤ i + 1 ∧ (∀ k ∈ chain, k ≤ i) ∧
        chain.Pairwise fun a b => b < a := by
  intro fuel
  induction fuel with
  | zero => exact fun i _ h => absurd h (Nat.not_lt_zero i)
  | succ fuel ih =>
    intro i hi hfuel
    rcases GxFile.GetNextZoomImage_smaller G1_FLAG_HAS_ZOOM_SPRITE f hsize hchain i hi with
      hnone | ⟨j, hj, hsome⟩
    · refine ⟨[i], by simp only [GxFile.zoomChain, hnone], rfl, by simp, by simp, by simp⟩
    · obtain ⟨rest, hrest, hhead, hlen, hall, hpair⟩ :=
        ih j (Nat.lt_trans hj hi) (by omega)
      refine ⟨i :: rest, by simp only [GxFile.zoomChain, hsome, hrest, Option.map_some'],
        rfl, ?_, ?_, ?_⟩
      · simp only [List.length_cons]
        omega
      · intro k hk
        rcases List.mem_cons.mp hk with rfl | hk
        · exact Nat.le_refl _
        · have := hall k hk
          omega
      · refine List.Pairwise.cons ?_ hpair
        intro k hk
        have := hall k hk
        omega

/-- C17: in an eager container where every element `k` with the
`G1_FLAG_HAS_ZOOM_SPRITE` bit set has `1 <= zoomed_offset <= k`,
`GetNextZoomImage(i)` for `i < count` is none or a strictly smaller index,
below `count`; and the walk down the zoom chain from `i`, given `i + 1` calls,
ends: it visits at most `i + 1` indices (at most `i` steps), starting at `i`,
strictly decreasing, all below `count`. -/
theorem GxFile.zoom_chain_terminates (G1_FLAG_HAS_ZOOM_SPRITE : Nat) (f : GxFile)
    (hsize : f.GetCount ≤ 2 ^ 64)
    (hchain : ∀ (k : Nat) (element : rct_g1_element Nat),
      f._elements[k]? = some element →
      element.flags &&& G1_FLAG_HAS_ZOOM_SPRITE ≠ 0 →
      1 ≤ element.zoomed_offset ∧ element.zoomed_offset ≤ k)
    (i : Nat) (hi : i < f.GetCount) :
    (f.GetNextZoomImage G1_FLAG_HAS_ZOOM_SPRITE i = .ok none ∨
      ∃ j, j < i ∧ j < f.GetCount ∧
        f.GetNextZoomImage G1_FLAG_HAS_ZOOM_SPRITE i = .ok (some j)) ∧
    ∃ chain, f.zoomChain G1_FLAG_HAS_ZOOM_SPRITE (i + 1) i = some chain ∧
      chain.head? = some i ∧ chain.length ≤ i + 1 ∧ (∀ k ∈ chain, k < f.GetCount) ∧
      chain.Pairwise fun a b => b < a := by
  constructor
  · rcases GxFile.GetNextZoomImage_smaller G1_FLAG_HAS_ZOOM_SPRITE f hsize hchain i hi with
      hnone | ⟨j, hj, hsome⟩
    · exact Or.inl hnone
    · exact Or.inr ⟨j, hj, Nat.lt_trans hj hi, hsome⟩
  · obtain ⟨chain, hrun, hhead, hlen, hall, hpair⟩ :=
      GxFile.zoomChain_ends G1_FLAG_HAS_ZOOM_SPRITE f hsize hchain (i + 1) i hi
        (Nat.lt_succ_self i)
    exact ⟨chain, hrun, hhead, hlen, fun k hk => Nat.lt_of_le_of_lt (hall k hk) hi, hpair⟩

/-- Witness of C17 on `zoomLadder`: from index 3 the sibling is 1, and the
walk visits 3, 1, 0. -/
theorem GxFile.zoom_chain_terminates_witness :
    zoomLadder.GetNextZoomImage 16 3 = .ok (some 1) ∧
    zoomLadder.zoomChain 16 4 3 = some [3, 1, 0] ∧
    ∃ chain, zoomLadder.zoomChain 16 (3 + 1) 3 = some chain ∧
      chain.head? = some 3 ∧ chain.length ≤ 3 + 1 ∧
      (∀ k ∈ chain, k < zoomLadder.GetCount) ∧
      chain.Pairwise fun a b => b < a := by
  have hchain : ∀ (k : Nat) (element : rct_g1_element Nat),
      zoomLadder._elements[k]? = some element →
      element.flags &&& 16 ≠ 0 → 1 ≤ element.zoomed_offset ∧ element.zoomed_offset ≤ k := by
    intro k element hel hflag
    rcases k with _ | _ | _ | _ | k
    · simp [zoomLadder] at hel
      subst hel
      exact absurd rfl hflag
    · simp [zoomLadder] at hel
      subst hel
      decide
    · simp [zoomLadder] at hel
      subst hel
      exact absurd rfl hflag
    · simp [zoomLadder] at hel
      subst hel
      decide
    · simp [zoomLadder] at hel
  exact ⟨by rfl, by rfl,
    (GxFile.zoom_chain_terminates 16 zoomLadder (by decide) hchain 3 (by decide)).2⟩

/-! ## The refinement between the two variants -/

/-- C18: for a container image and an index `i < count` such that the size
function gives, for the rebased element `i`, the adjacency length
(`offset(i+1) - offset(i)`, or `dataSize - offset(i)` for the last index), and
`offset(i)` plus that length is at most `dataSize`, the `GxFile` and the
`GxStream` built from the same bytes both return from `GetImageCopy(i)`, with
the same width, height, x_offset, y_offset, flags and zoomed_offset (those of
record `i`) and the same buffer: the bytes of the slice in the blob. -/
theorem GetImageCopy_refinement (g1_calculate_data_size : rct_g1_element Nat → Nat)
    (dataStart : Nat) (bytes : List UInt8) (count dataSize i : Nat)
    (src next : rct_g1_element_32bit) (himg : IsContainerImage bytes count dataSize)
    (hi : i < count) (hsrc : imageRecord bytes i = some src)
    (hnext : i < count - 1 → imageRecord bytes (i + 1) = some next)
    (hsize : g1_calculate_data_size
        { offset := src.offset + dataStart, width := src.width, height := src.height,
          x_offset := src.x_offset, y_offset := src.y_offset, flags := src.flags,
          zoomed_offset := src.zoomed_offset } = adjacencyLength count dataSize i src next)
    (hfit : src.offset + adjacencyLength count dataSize i src next ≤ dataSize) :
    ∃ (f : GxFile) (g : GxStream) (buffer : List UInt8),
      (GxFile.ofStream dataStart (IStream.ofBytes bytes)).1 = .ok f ∧
      (GxStream.ofStream (IStream.ofBytes bytes)).1 = .ok g ∧
      f.GetImageCopy g1_calculate_data_size i =
        .ok { offset := some buffer, width := src.width, height := src.height,
              x_offset := src.x_offset, y_offset := src.y_offset, flags := src.flags,
              zoomed_offset := src.zoomed_offset } ∧
      (g.GetImageCopy i).1 =
        .ok { offset := some buffer, width := src.width, height := src.height,
              x_offset := src.x_offset, y_offset := src.y_offset, flags := src.flags,
              zoomed_offset := src.zoomed_offset } ∧
      buffer.length = adjacencyLength count dataSize i src next ∧
      buffer = (bytes.drop (8 + count * 16 + src.offset)).take
        (adjacencyLength count dataSize i src next) := by
  have hlen := himg.2.2
  obtain ⟨g, hg, hgc, hgs, hge, hgd, hged, hgdd⟩ :=
    GxStream.streaming_of_image bytes count dataSize himg
  obtain ⟨f, hf, hfs, hfd, hfl, hfe⟩ :=
    GxFile.eager_of_image dataStart bytes count dataSize himg
  refine ⟨f, g, _, hf, hg, ?_, ?_, ?_, rfl⟩
  · have hdlen : f._data.length = dataSize := by
      rw [hfd, List.length_take, List.length_drop]; omega
    have heager := GxFile.GetImageCopy_eq g1_calculate_data_size f i _ (hfe i src hi hsrc)
      (by rw [hfs]; simp)
      (by rw [hfs, hsize, hdlen]; simp only [Nat.add_sub_cancel]; exact hfit)
    simp only [hfs, hsize, Nat.add_sub_cancel, hfd, List.take_drop_take _ _ _ _ _ hfit]
      at heager
    exact heager
  · have hrec : ∀ k, g.record k = imageRecord bytes k := by
      intro k
      simp only [GxStream.record, imageRecord, hged, hge, sizeof_rct_g1_element_32bit]
    obtain ⟨g2, hcopy, hd2, hdd2, -⟩ := GxStream.GetImageCopy_eq_copySlice g i src next
      (by rw [hgc]; exact hi) ((hrec i).trans hsrc)
      (fun h => (hrec (i + 1)).trans (hnext (by rw [hgc] at h; exact h)))
    have hdl : g.dataLength i src next = adjacencyLength count dataSize i src next := by
      simp only [GxStream.dataLength, hgc, hgs]
    rw [hdl] at hcopy
    obtain ⟨hres, -⟩ :=
      GxStream.copySlice_ok g2 i src (adjacencyLength count dataSize i src next)
        (by rw [hd2, hdd2, hgd, hgdd]; omega)
    rw [hd2, hdd2, hgd, hgdd] at hres
    rw [hcopy, hres]
  · exact List.length_take_drop_of_le _ _ _ (by omega)

/-- Witness of C18 on `packedBytes`, index 0: both variants return the 2x2
sprite with the four blob bytes 11, 12, 13, 14. -/
theorem GetImageCopy_refinement_witness :
    ∃ (f : GxFile) (g : GxStream) (buffer : List UInt8),
      (GxFile.ofStream 4096 (IStream.ofBytes packedBytes)).1 = .ok f ∧
      (GxStream.ofStream (IStream.ofBytes packedBytes)).1 = .ok g ∧
      f.GetImageCopy rawDataSize 0 =
        .ok { offset := some buffer, width := 2, height := 2, x_offset := 0, y_offset := 0,
              flags := 0, zoomed_offset := 0 } ∧
      (g.GetImageCopy 0).1 =
        .ok { offset := some buffer, width := 2, height := 2, x_offset := 0, y_offset := 0,
              flags := 0, zoomed_offset := 0 } ∧
      buffer.length = 4 ∧ buffer = [11, 12, 13, 14] :=
  GetImageCopy_refinement rawDataSize 4096 packedBytes 2 8 0 (squareRecord 0 2)
    (squareRecord 4 2) ⟨by decide, by decide, by decide⟩ (by decide) (by decide) (by decide)
    (by decide) (by decide)

/-! ## The image object -/

/-- C20: `ImageObject::GetImage(n)` returns `ImageIndexUndefined` whenever the
base image index is `ImageIndexUndefined`, which it is in a fresh object and
after `Unload`; otherwise it returns `base + n` in 32-bit unsigned arithmetic,
`base` being, after `Load`, the value `LoadImages` returned. -/
theorem ImageObject.GetImage_base (ImageIndexUndefined : Nat) (obj : ImageObject)
    (loadImages n : Nat) :
    (ImageObject.fresh ImageIndexUndefined).GetImage ImageIndexUndefined n
      = ImageIndexUndefined ∧
    (obj.Unload ImageIndexUndefined).GetImage ImageIndexUndefined n = ImageIndexUndefined ∧
    (obj._baseImageIndex = ImageIndexUndefined →
      obj.GetImage ImageIndexUndefined n = ImageIndexUndefined) ∧
    (obj._baseImageIndex ≠ ImageIndexUndefined →
      obj.GetImage ImageIndexUndefined n = (obj._baseImageIndex + n) % 2 ^ 32) ∧
    (obj.Load loadImages)._baseImageIndex = loadImages ∧
    (loadImages ≠ ImageIndexUndefined →
      (obj.Load loadImages).GetImage ImageIndexUndefined n = (loadImages + n) % 2 ^ 32) := by
  refine ⟨?_, ?_, ?_, ?_, rfl, ?_⟩
  · simp [ImageObject.GetImage, ImageObject.fresh]
  · simp [ImageObject.GetImage, ImageObject.Unload]
  · intro h
    simp [ImageObject.GetImage, h]
  · intro h
    simp [ImageObject.GetImage, h]
  · intro h
    simp [ImageObject.GetImage, ImageObject.Load, h]

/-- Witness of C20 with `ImageIndexUndefined = 2^32 - 1`: an object whose
base index is undefined answers undefined; loaded at base 100 it answers 105
for index 5; loaded at base `2^32 - 6` it answers 4 for index 10 (the sum
wraps). -/
theorem ImageObject.GetImage_base_witness :
    ImageObject.GetImage 4294967295 { _baseImageIndex := 4294967295 } 7 = 4294967295 ∧
    ((ImageObject.fresh 4294967295).Load 100).GetImage 4294967295 5 = 105 ∧
    ((ImageObject.fresh 4294967295).Load 4294967290).GetImage 4294967295 10 = 4 :=
  ⟨(ImageObject.GetImage_base 4294967295 { _baseImageIndex := 4294967295 } 0 7).2.2.1
      (by decide),
   (ImageObject.GetImage_base 4294967295 (ImageObject.fresh 4294967295) 100 5).2.2.2.2.2
      (by decide),
   (ImageObject.GetImage_base 4294967295 (ImageObject.fresh 4294967295) 4294967290
      10).2.2.2.2.2 (by decide)⟩

/-! ## The two-stream constructor -/

theorem GxStream.ReadElement_separate (g : GxStream) (se sd : IStream)
    (h : g.handles = .separate se sd) (i : Nat) :
    ∃ se1, (g.ReadElement i).2.handles = .separate se1 sd ∧
      (g.ReadElement i).2._count = g._count ∧
      (g.ReadElement i).2._elementStart = g._elementStart ∧
      se1.reads = (g._elementStart + i * 16, 16) :: se.reads := by
  obtain ⟨handles, es, ds, count, dataSize, ci, ce⟩ := g
  simp only at h
  subst h
  refine ⟨_, rfl, rfl, rfl, ?_⟩
  exact IStream.ReadValueElement_reads se (es + i * 16)

theorem GxStream.copySlice_separate (g : GxStream) (se sd : IStream)
    (h : g.handles = .separate se sd) (i : Nat) (src : rct_g1_element_32bit) (len : Nat) :
    (g.copySlice i src len).2.elementStream = se := by
  obtain ⟨handles, es, ds, count, dataSize, ci, ce⟩ := g
  simp only at h
  subst h
  simp only [GxStream.copySlice, GxStream.ReadData, GxStream.dataStream,
    GxStream.withDataStream]
  generalize (sd.SetPosition (ds + src.offset)).ReadArray len = r
  obtain ⟨res, s1⟩ := r
  cases res <;> rfl

/-- The element reads of `GetImageCopy(i)` over two separate streams: none
for `i >= count`; otherwise that of record `i` and, when `i` is not the last
index, that of record `i + 1`. -/
theorem GxStream.GetImageCopy_separate_reads (g : GxStream) (se sd : IStream)
    (h : g.handles = .separate se sd) (i : Nat) :
    ∃ pre, (g.GetImageCopy i).2.elementStream.reads = pre ++ se.reads ∧
      ∀ pr ∈ pre, i < g._count ∧
        (pr = (g._elementStart + i * 16, 16) ∨
          (i < g._count - 1 ∧ pr = (g._elementStart + (i + 1) * 16, 16))) := by
  have hse : g.elementStream = se := by
    simp only [GxStream.elementStream, h]
  by_cases hi : i < g._count
  · obtain ⟨se1, h1, hc1, hes1, hr1⟩ := GxStream.ReadElement_separate g se sd h i
    unfold GxStream.GetImageCopy
    rw [if_pos hi]
    generalize g.ReadElement i = r at h1 hc1 hes1
    obtain ⟨res, g1⟩ := r
    simp only at h1 hc1 hes1
    cases res with
    | error e =>
      refine ⟨[(g._elementStart + i * 16, 16)], ?_, ?_⟩
      · simp only [GxStream.elementStream, h1, hr1, List.singleton_append]
      · intro pr hpr
        exact ⟨hi, Or.inl (List.mem_singleton.mp hpr)⟩
    | ok src =>
      simp only
      by_cases hlt : i < g1._count - 1
      · obtain ⟨se2, h2, -, -, hr2⟩ := GxStream.ReadElement_separate g1 se1 sd h1 (i + 1)
        simp only [hlt, if_true]
        generalize g1.ReadElement (i + 1) = r2 at h2
        obtain ⟨res2, g2⟩ := r2
        simp only at h2
        have hmem : ∀ pr ∈
            [(g._elementStart + (i + 1) * 16, 16), (g._elementStart + i * 16, 16)],
            i < g._count ∧ (pr = (g._elementStart + i * 16, 16) ∨
              (i < g._count - 1 ∧ pr = (g._elementStart + (i + 1) * 16, 16))) := by
          intro pr hpr
          rcases List.mem_cons.mp hpr with rfl | hpr
          · exact ⟨hi, Or.inr ⟨by rw [← hc1]; exact hlt, rfl⟩⟩
          · exact ⟨hi, Or.inl (List.mem_singleton.mp hpr)⟩
        refine ⟨_, ?_, hmem⟩
        cases res2 with
        | error e =>
          simp only [GxStream.elementStream, h2, hr2, hr1, hes1, List.cons_append,
            List.nil_append]
        | ok next =>
          simp only [GxStream.copySlice_separate g2 se2 sd h2, hr2, hr1, hes1,
            List.cons_append, List.nil_append]
      · simp only [hlt, if_false]
        refine ⟨[(g._elementStart + i * 16, 16)], ?_, ?_⟩
        · simp only [GxStream.copySlice_separate g1 se1 sd h1, hr1, List.singleton_append]
        · intro pr hpr
          exact ⟨hi, Or.inl (List.mem_singleton.mp hpr)⟩
  · refine ⟨[], ?_, fun pr hpr => absurd hpr (List.not_mem_nil pr)⟩
    unfold GxStream.GetImageCopy
    rw [if_neg hi, hse, List.nil_append]

/-- C19: built from two separate streams, a `GxStream` leaves both as they
were (nothing is read), takes `count = elementStreamLength / 16` (rounded
down) and `dataSize = dataStreamLength`.  Every counted record is wholly in
the element stream; for the last index `GetImageCopy` requests
`dataStreamLength - offset(count - 1)` bytes (the `size_t` subtraction, the
plain difference when the offset is within the data stream); and every read
`GetImageCopy` makes on the element stream ends at or before `16 * count`, so
bytes after the last whole record are never addressed. -/
theorem GxStream.construction_separate (streamElements streamData : IStream) :
    (GxStream.ofStreams streamElements streamData).handles =
      .separate streamElements streamData ∧
    (GxStream.ofStreams streamElements streamData)._count =
      streamElements.data.length / 16 ∧
    (GxStream.ofStreams streamElements streamData)._dataSize = streamData.data.length ∧
    (∀ i, i < streamElements.data.length / 16 →
      ∃ e, (GxStream.ofStreams streamElements streamData).record i = some e) ∧
    (∀ src, 1 ≤ streamElements.data.length / 16 →
      (GxStream.ofStreams streamElements streamData).record
        (streamElements.data.length / 16 - 1) = some src →
      ((GxStream.ofStreams streamElements streamData).GetImageCopy
        (streamElements.data.length / 16 - 1)).2.dataStream.reads.head? =
          some (src.offset, wrapSub 64 streamData.data.length src.offset) ∧
      (src.offset ≤ streamData.data.length → streamData.data.length < 2 ^ 64 →
        wrapSub 64 streamData.data.length src.offset =
          streamData.data.length - src.offset)) ∧
    (∀ i, ∃ pre,
      ((GxStream.ofStreams streamElements streamData).GetImageCopy i).2.elementStream.reads =
        pre ++ streamElements.reads ∧
      ∀ pr ∈ pre, pr.1 + pr.2 ≤ 16 * (streamElements.data.length / 16)) := by
  have hdiv : streamElements.data.length / 16 * 16 ≤ streamElements.data.length :=
    Nat.div_mul_le_self _ _
  refine ⟨rfl, rfl, rfl, ?_, ?_, ?_⟩
  · intro i hi
    apply decodeElement_of_length
    simp only [GxStream.ofStreams, GxStream.elementStream, sizeof_rct_g1_element_32bit,
      List.length_take, List.length_drop]
    omega
  · intro src hcount hsrc
    constructor
    · have hreq := GxStream.GetImageCopy_request
        (GxStream.ofStreams streamElements streamData)
        (streamElements.data.length / 16 - 1) src src
        (by simp only [GxStream.ofStreams, IStream.GetLength, sizeof_rct_g1_element_32bit]
            omega)
        hsrc
        (fun h => by
          simp only [GxStream.ofStreams, IStream.GetLength, sizeof_rct_g1_element_32bit,
            Nat.lt_irrefl] at h)
      simpa [GxStream.dataLength, adjacencyLength, GxStream.ofStreams, IStream.GetLength,
        sizeof_rct_g1_element_32bit] using hreq
    · intro hle h64
      have := wrapSub_of_le 64 streamData.data.length src.offset (by omega)
        (by exact_mod_cast hle) h64
      omega
  · intro i
    obtain ⟨pre, hpre, hall⟩ := GxStream.GetImageCopy_separate_reads
      (GxStream.ofStreams streamElements streamData) streamElements streamData rfl i
    refine ⟨pre, hpre, ?_⟩
    intro pr hpr
    obtain ⟨hi, hcase⟩ := hall pr hpr
    simp only [GxStream.ofStreams, IStream.GetLength, sizeof_rct_g1_element_32bit] at hi hcase
    rcases hcase with rfl | ⟨hlt, rfl⟩
    · simp only
      omega
    · simp only
      omega

/-- Witness of C19 on `raggedStreams` (an element stream of 37 bytes, a data
stream of 25): count is 2, dataSize is 25, record 1 is present, and the copy
of the last index requests the 15 bytes from offset 10 on. -/
theorem GxStream.construction_separate_witness :
    raggedStreams._count = 37 / 16 ∧ raggedStreams._dataSize = 25 ∧
    (∃ e, raggedStreams.record 1 = some e) ∧
    (raggedStreams.GetImageCopy 1).2.dataStream.reads.head? = some (10, 15) :=
  ⟨(GxStream.construction_separate _ _).2.1, (GxStream.construction_separate _ _).2.2.1,
   (GxStream.construction_separate _ _).2.2.2.1 1 (by decide),
   ((GxStream.construction_separate _ _).2.2.2.2.1 (squareRecord 10 1) (by decide)
      (by decide)).1⟩

/-! ## Platform services -/

namespace Platform

open Language

/-! ### The locale lookup -/

/-- The comparison is zero exactly when the tag is a prefix of the locale name. -/
theorem wcsncmpIsZero_iff (langCode tag : String) :
    wcsncmpIsZero langCode tag = true ↔ tag.toList <+: langCode.toList := by
  unfold wcsncmpIsZero
  rw [List.prefix_iff_eq_take]
  simp only [beq_iff_eq, String.length]
  exact eq_comm

/-- A search returns the element at position `i` when it passes the test and no
element before it does. -/
theorem find_first_match {α : Type} (p : α → Bool) (l : List α) (i : Nat) (a : α)
    (ha : l[i]? = some a) (hp : p a = true)
    (hfirst : ∀ (j : Nat) (b : α), j < i → l[j]? = some b → p b = false) :
    l.find? p = some a := by
  induction l generalizing i with
  | nil => simp at ha
  | cons x xs ih =>
    cases i with
    | zero =>
      simp at ha
      subst ha
      simp [List.find?, hp]
    | succ k =>
      have hx : p x = false := hfirst 0 x (Nat.succ_pos k) (by simp)
      simp only [List.find?, hx]
      apply ih k
      · simpa using ha
      · intro j b hj hb
        exact hfirst (j + 1) b (Nat.succ_lt_succ hj) (by simpa using hb)

/-- No tag of the table is a prefix of another one, the pair "fr", "fr-CA" apart:
an entry other than the thirteenth, "fr-CA", neither starts nor is started by
the tag of an entry before it. -/
theorem supportedLocales_apart :
    ∀ i j : Fin supportedLocales.length, j < i → i.val ≠ 12 →
      wcsncmpIsZero (supportedLocales.get i).1 (supportedLocales.get j).1 = false
        ∧ wcsncmpIsZero (supportedLocales.get j).1 (supportedLocales.get i).1 = false := by
  decide

/-- A locale name that starts with the tag of an entry other than "fr-CA" yields
the language of that entry. -/
theorem GetLocaleLanguage_at (langCode : String) (i : Fin supportedLocales.length)
    (hi : i.val ≠ 12) (h : wcsncmpIsZero langCode (supportedLocales.get i).1 = true) :
    GetLocaleLanguage (some langCode) = (supportedLocales.get i).2 := by
  have hfind : supportedLocales.find? (fun locale => wcsncmpIsZero langCode locale.1)
      = some (supportedLocales.get i) := by
    apply find_first_match _ _ i.val
    · simp
    · exact h
    · intro j b hj hb
      have hjlt : j < supportedLocales.length := lt_trans hj i.isLt
      have hbj : b = supportedLocales.get ⟨j, hjlt⟩ := by
        rw [List.getElem?_eq_getElem hjlt] at hb
        exact (Option.some.inj hb).symm
      cases hpb : wcsncmpIsZero langCode b.1 with
      | false => rfl
      | true =>
        exfalso
        have h1 := (wcsncmpIsZero_iff _ _).1 hpb
        have h2 := (wcsncmpIsZero_iff _ _).1 h
        have hap := supportedLocales_apart i ⟨j, hjlt⟩ hj hi
        rw [← hbj] at hap
        rcases List.prefix_or_prefix_of_prefix h1 h2 with h3 | h3
        · have := (wcsncmpIsZero_iff _ _).2 h3
          rw [hap.1] at this
          exact Bool.false_ne_true this
        · have := (wcsncmpIsZero_iff _ _).2 h3
          rw [hap.2] at this
          exact Bool.false_ne_true this
  unfold GetLocaleLanguage
  simp only [hfind]

/-- The same for an entry given as a member of the table. -/
theorem GetLocaleLanguage_of_tag (langCode : String) (locale : String × Language)
    (hmem : locale ∈ supportedLocales) (htag : locale.1 ≠ "fr-CA")
    (h : wcsncmpIsZero langCode locale.1 = true) :
    GetLocaleLanguage (some langCode) = locale.2 := by
  obtain ⟨i, hi⟩ := List.mem_iff_get.1 hmem
  subst hi
  apply GetLocaleLanguage_at langCode i _ h
  intro h12
  apply htag
  have : i = ⟨12, by decide⟩ := Fin.ext h12
  rw [this]
  rfl

/-- A locale name that starts with no tag of the table yields
`LANGUAGE_UNDEFINED`. -/
theorem GetLocaleLanguage_no_match (langCode : String)
    (h : ∀ locale ∈ supportedLocales, wcsncmpIsZero langCode locale.1 = false) :
    GetLocaleLanguage (some langCode) = LANGUAGE_UNDEFINED := by
  have hfind : supportedLocales.find? (fun locale => wcsncmpIsZero langCode locale.1) = none := by
    rw [List.find?_eq_none]
    intro locale hmem
    rw [h locale hmem]
    exact Bool.false_ne_true
  unfold GetLocaleLanguage
  simp only [hfind]

/-- The only entry paired with `LANGUAGE_FRENCH_CA` is the one of "fr-CA". -/
theorem supportedLocales_french_ca :
    ∀ locale ∈ supportedLocales, locale.2 = LANGUAGE_FRENCH_CA → locale.1 = "fr-CA" := by
  decide

/-- The entry of "fr-CA" is never reached: a name that starts with "fr-CA" starts
with "fr". -/
theorem GetLocaleLanguage_ne_french_ca (langCode : String) :
    GetLocaleLanguage (some langCode) ≠ LANGUAGE_FRENCH_CA := by
  intro hres
  cases hfr : wcsncmpIsZero langCode "fr" with
  | true =>
    have h := GetLocaleLanguage_at langCode ⟨11, by decide⟩ (by decide) hfr
    rw [h] at hres
    exact absurd hres (by decide)
  | false =>
    unfold GetLocaleLanguage at hres
    simp only at hres
    cases hfind : supportedLocales.find? (fun locale => wcsncmpIsZero langCode locale.1) with
    | none =>
      rw [hfind] at hres
      exact absurd hres (by decide)
    | some locale =>
      rw [hfind] at hres
      simp only at hres
      have hmem := List.mem_of_find?_eq_some hfind
      have hp := List.find?_some hfind
      simp only at hp
      have htag := supportedLocales_french_ca locale hmem hres
      rw [htag] at hp
      have h1 := (wcsncmpIsZero_iff _ _).1 hp
      have h2 : "fr".toList <+: "fr-CA".toList := by decide
      have h3 := (wcsncmpIsZero_iff _ _).2 (h2.trans h1)
      rw [hfr] at h3
      exact Bool.false_ne_true h3

/-- When `GetLocaleInfoEx` fails the language is `LANGUAGE_UNDEFINED`. -/
theorem GetLocaleLanguage_failed : GetLocaleLanguage none = LANGUAGE_UNDEFINED := rfl

/-- The lookup on some locale names other than "fr-CA". -/
theorem GetLocaleLanguage_examples :
    GetLocaleLanguage (some "fr-FR") = LANGUAGE_FRENCH
      ∧ GetLocaleLanguage (some "fr") = LANGUAGE_FRENCH
      ∧ GetLocaleLanguage (some "en-GB") = LANGUAGE_ENGLISH_UK
      ∧ GetLocaleLanguage (some "en-AU") = LANGUAGE_UNDEFINED
      ∧ GetLocaleLanguage (some "de-AT") = LANGUAGE_GERMAN
      ∧ GetLocaleLanguage (some "ar-EG") = LANGUAGE_UNDEFINED
      ∧ GetLocaleLanguage (some "f") = LANGUAGE_UNDEFINED := by
  decide

/-- C21: `GetLocaleLanguage` returns the language of the FIRST table entry
whose tag starts the locale name, and the entry "fr" stands before "fr-CA".
For the locale name "fr-CA", which is a tag of the table paired with
`LANGUAGE_FRENCH_CA`, the function returns `LANGUAGE_FRENCH`; indeed no locale
name at all makes it return `LANGUAGE_FRENCH_CA`. -/
theorem GetLocaleLanguage_french_canada :
    ("fr-CA", LANGUAGE_FRENCH_CA) ∈ supportedLocales
      ∧ wcsncmpIsZero "fr-CA" "fr-CA" = true
      ∧ GetLocaleLanguage (some "fr-CA") = LANGUAGE_FRENCH
      ∧ GetLocaleLanguage (some "fr-CA") ≠ LANGUAGE_FRENCH_CA
      ∧ ∀ langCode : String, GetLocaleLanguage (some langCode) ≠ LANGUAGE_FRENCH_CA :=
  ⟨by decide, by decide, by decide, by decide, GetLocaleLanguage_ne_french_ca⟩

/-! ### The clock -/

/-- The two halves are joined without loss: the value is `high * 2 ^ 32 + low`. -/
theorem fileTime64_eq (dwLowDateTime dwHighDateTime : Nat) :
    fileTime64 dwLowDateTime dwHighDateTime
      = dwHighDateTime % 2 ^ 32 * 2 ^ 32 + dwLowDateTime % 2 ^ 32 := by
  unfold fileTime64
  rw [Nat.shiftLeft_eq, Nat.mul_comm]
  exact (Nat.mul_add_lt_is_or (Nat.mod_lt _ (by decide)) _).symm

/-- The joined value is a 64-bit one. -/
theorem fileTime64_lt (dwLowDateTime dwHighDateTime : Nat) :
    fileTime64 dwLowDateTime dwHighDateTime < 2 ^ 64 := by
  rw [fileTime64_eq]
  have h1 : dwHighDateTime % 2 ^ 32 < 2 ^ 32 := Nat.mod_lt _ (by decide)
  have h2 : dwLowDateTime % 2 ^ 32 < 2 ^ 32 := Nat.mod_lt _ (by decide)
  norm_num at h1 h2 ⊢
  omega

/-- The result is the file time minus the distance when the file time is at
least the distance, and wraps around `2 ^ 64` below it. -/
theorem GetDatetimeNowUTC_eq (dwLowDateTime dwHighDateTime : Nat) :
    GetDatetimeNowUTC dwLowDateTime dwHighDateTime
      = if 504911232000000000 ≤ fileTime64 dwLowDateTime dwHighDateTime then
          fileTime64 dwLowDateTime dwHighDateTime - 504911232000000000
        else fileTime64 dwLowDateTime dwHighDateTime + 2 ^ 64 - 504911232000000000 := by
  have hlt := fileTime64_lt dwLowDateTime dwHighDateTime
  unfold GetDatetimeNowUTC wrapSub
  generalize fileTime64 dwLowDateTime dwHighDateTime = f at hlt ⊢
  norm_num at hlt ⊢
  split <;> omega

/-- For no file time is the result the sum of the file time and the distance,
exactly or modulo `2 ^ 64`. -/
theorem GetDatetimeNowUTC_ne_sum (dwLowDateTime dwHighDateTime : Nat) :
    GetDatetimeNowUTC dwLowDateTime dwHighDateTime
        ≠ fileTime64 dwLowDateTime dwHighDateTime + 504911232000000000
      ∧ GetDatetimeNowUTC dwLowDateTime dwHighDateTime
        ≠ (fileTime64 dwLowDateTime dwHighDateTime + 504911232000000000) % 2 ^ 64 := by
  have hlt := fileTime64_lt dwLowDateTime dwHighDateTime
  rw [GetDatetimeNowUTC_eq]
  generalize fileTime64 dwLowDateTime dwHighDateTime = f at hlt ⊢
  norm_num at hlt ⊢
  constructor <;> split <;> omega

/-- C22: `GetDatetimeNowUTC` SUBTRACTS the distance between the two epochs
from the file time, in 64-bit unsigned arithmetic, where the tick count from
0001-01-01 is the file time PLUS that distance.  For the file time of
2024-01-01T00:00:00Z (133485408000000000 ticks since 1601-01-01) it returns
18075318249709551616 and not 638396640000000000; the constant itself is the
right one, 584388 days of 864000000000 ticks, and for no file time does the
result equal the sum, not even modulo 2^64. -/
theorem GetDatetimeNowUTC_subtracts :
    fileTime64 1988739072 31079493 = 133485408000000000
      ∧ GetDatetimeNowUTC 1988739072 31079493 = 18075318249709551616
      ∧ 133485408000000000 + 584388 * (24 * 60 * 60 * 10000000) = 638396640000000000
      ∧ 584388 * (24 * 60 * 60 * 10000000) = 504911232000000000
      ∧ ∀ dwLowDateTime dwHighDateTime : Nat,
          GetDatetimeNowUTC dwLowDateTime dwHighDateTime
              ≠ fileTime64 dwLowDateTime dwHighDateTime + 504911232000000000
            ∧ GetDatetimeNowUTC dwLowDateTime dwHighDateTime
              ≠ (fileTime64 dwLowDateTime dwHighDateTime + 504911232000000000) % 2 ^ 64 :=
  ⟨by decide, by decide, by decide, by decide, GetDatetimeNowUTC_ne_sum⟩

/-! ### The version test -/

/-- The nested comparison of the source is the lexicographic order of triples. -/
theorem IsOSVersionAtLeast_eq_true (os : OSVersionQuery) (major minor build : Nat) :
    IsOSVersionAtLeast os major minor build = true
      ↔ (os.hModule = true ∧ os.fn = true ∧ os.status = 0)
        ∧ toLex (major, toLex (minor, build))
            ≤ toLex (os.dwMajorVersion, toLex (os.dwMinorVersion, os.dwBuildNumber)) := by
  have hlex : toLex (major, toLex (minor, build))
        ≤ toLex (os.dwMajorVersion, toLex (os.dwMinorVersion, os.dwBuildNumber))
      ↔ os.dwMajorVersion > major
        ∨ (os.dwMajorVersion = major
          ∧ (os.dwMinorVersion > minor
            ∨ (os.dwMinorVersion = minor ∧ os.dwBuildNumber ≥ build))) := by
    rw [Prod.Lex.le_iff]
    simp only [Prod.Lex.le_iff, gt_iff_lt, ge_iff_le]
    constructor
    · rintro (h | ⟨h1, h2 | ⟨h2, h3⟩⟩)
      · exact Or.inl h
      · exact Or.inr ⟨h1.symm, Or.inl h2⟩
      · exact Or.inr ⟨h1.symm, Or.inr ⟨h2.symm, h3⟩⟩
    · rintro (h | ⟨h1, h2 | ⟨h2, h3⟩⟩)
      · exact Or.inl h
      · exact Or.inr ⟨h1.symm, Or.inl h2⟩
      · exact Or.inr ⟨h1.symm, Or.inr ⟨h2.symm, h3⟩⟩
  rw [hlex]
  unfold IsOSVersionAtLeast
  cases hm : os.hModule with
  | false => simp
  | true =>
    cases hf : os.fn with
    | false => simp
    | true =>
      by_cases hs : os.status = 0
      · simp only [hs, if_true, true_and, and_self]
        split <;> simp_all
      · simp [hs]

/-- C23: `IsOSVersionAtLeast(major, minor, build)` is true exactly when the
version query succeeds (the module and `RtlGetVersion` are found and the call
returns 0) and the reported triple is lexicographically at least
`(major, minor, build)`.  Hence it is monotone: true for one triple, it is
true for every lexicographically smaller or equal triple; and
`HasANSIColourSupport` is true exactly when the query succeeds and the
reported triple is at least `(10, 0, 10586)`. -/
theorem IsOSVersionAtLeast_lexicographic (os : OSVersionQuery) (major minor build : Nat) :
    (IsOSVersionAtLeast os major minor build = true
      ↔ (os.hModule = true ∧ os.fn = true ∧ os.status = 0)
        ∧ toLex (major, toLex (minor, build))
            ≤ toLex (os.dwMajorVersion, toLex (os.dwMinorVersion, os.dwBuildNumber)))
    ∧ (∀ major1 minor1 build1 : Nat,
        toLex (major1, toLex (minor1, build1)) ≤ toLex (major, toLex (minor, build)) →
        IsOSVersionAtLeast os major minor build = true →
        IsOSVersionAtLeast os major1 minor1 build1 = true)
    ∧ (HasANSIColourSupport os = true
      ↔ (os.hModule = true ∧ os.fn = true ∧ os.status = 0)
        ∧ toLex (10, toLex (0, 10586))
            ≤ toLex (os.dwMajorVersion, toLex (os.dwMinorVersion, os.dwBuildNumber))) := by
  refine ⟨IsOSVersionAtLeast_eq_true os major minor build, ?_, ?_⟩
  · intro major1 minor1 build1 hle h
    rw [IsOSVersionAtLeast_eq_true] at h ⊢
    exact ⟨h.1, le_trans hle h.2⟩
  · unfold HasANSIColourSupport
    exact IsOSVersionAtLeast_eq_true os 10 0 10586

/-- Witness of C23 on Windows 10 build 19045: the test holds for the reported
triple itself, hence for the smaller triple `(6, 1, 7601)`, and the colour
support test holds there while it fails on build 10240, on Windows 8.1 and
when the query fails. -/
theorem IsOSVersionAtLeast_lexicographic_witness :
    toLex (6, toLex (1, 7601)) ≤ toLex (10, toLex (0, 19045))
      ∧ IsOSVersionAtLeast windows10 10 0 19045 = true
      ∧ IsOSVersionAtLeast windows10 6 1 7601 = true
      ∧ HasANSIColourSupport windows10 = true
      ∧ HasANSIColourSupport windows10rtm = false
      ∧ HasANSIColourSupport windows81 = false
      ∧ IsOSVersionAtLeast versionQueryFailed 0 0 0 = false :=
  have hle : toLex (6, toLex (1, 7601)) ≤ toLex (10, toLex (0, 19045)) :=
    (Prod.Lex.le_iff _ _).2 (Or.inl (by decide))
  ⟨hle, by decide,
   (IsOSVersionAtLeast_lexicographic windows10 10 0 19045).2.1 6 1 7601 hle (by decide),
   by decide, by decide, by decide, by decide⟩

end Platform

end OpenRCT2
